import Mathlib

/-!
# go-jwt-middleware: the bearer-token gate

A shallow embedding of `jwt_middleware.go` (package `jwtmiddleware`): `Message`,
`Respond` and the handler built by `JwtMiddleware`, with the fixtures of
`jwt_middleware_test.go`.

The three functions of the package are embedded from their source.  What they call
lives outside the repository and is modelled here:

* `strings.Split` (Go standard library), in namespace `strings`;
* `http.Header`, `http.Request`, `http.ResponseWriter` (Go standard library), in
  namespace `http`: a response writer is a record of the header map handed out by
  `Header()`, the status and the header fields committed by `WriteHeader`, and the
  body written so far.  A run of a handler acts on a `State`: the response writer and
  the list of the requests handed to the downstream handler;
* `json.Encoder.Encode` (Go standard library), in namespace `json`;
* `jwt.Parse` of `github.com/dgrijalva/jwt-go` (`parser.go`, `hmac.go`, `errors.go` of
  v3.2.0), in namespace `jwt`: its control flow is followed statement by statement,
  over a record `jwt.Primitives` of the operations underneath it (base64url and JSON
  decoding, claim validation, the HMAC function), which stay abstract.  In the gate
  itself the parser is a parameter, so that what does not depend on the parser is
  proved for every parser.

Go strings are modelled by `String`, that is as sequences of Unicode characters.
-/

set_option maxRecDepth 100000

namespace jwtmiddleware

/-! ## package strings -/

namespace strings

/-- Put `c` in front of the first piece of a split. -/
def consHead (c : Char) : List (List Char) → List (List Char)
  | [] => [[c]]
  | piece :: pieces => (c :: piece) :: pieces

/-- The pieces of a text between the non-overlapping occurrences of a non-empty `sep`,
found from the left.  The first argument counts the characters of a matched `sep`
that are still to be passed over. -/
def splitFrom (sep : List Char) : Nat → List Char → List (List Char)
  | _, [] => [[]]
  | k + 1, _ :: rest => splitFrom sep k rest
  | 0, c :: rest =>
    if sep.isPrefixOf (c :: rest) then [] :: splitFrom sep (sep.length - 1) rest
    else consHead c (splitFrom sep 0 rest)

/-- Go's `strings.Split(s, sep)`: `s` cut at every non-overlapping occurrence of `sep`
from the left (one piece more than there are occurrences); with an empty `sep`, `s` cut
into its characters. -/
def Split (s sep : String) : List String :=
  if sep.data = [] then s.data.map (fun c => String.mk [c])
  else (splitFrom sep.data 0 s.data).map String.mk

/-- Go's `strings.ToLower`, on the letters A to Z (all that the one comparison made
with its result, against a lower-case ASCII literal free of `i` and `k`, can depend on). -/
def ToLower (s : String) : String :=
  String.mk (s.data.map Char.toLower)

/-- Go's `strings.HasPrefix`. -/
def HasPrefix (s pre : String) : Bool :=
  pre.data.isPrefixOf s.data

end strings

/-- The number of positions of `h` at which the text `sep` starts: how often `sep`
occurs in `h`.  (Stated from the specification's wording, "the header contains this
substring exactly once"; the code never computes it.) -/
def occurrences (sep : List Char) : List Char → Nat
  | [] => if sep.isPrefixOf [] then 1 else 0
  | c :: rest => (if sep.isPrefixOf (c :: rest) then 1 else 0) + occurrences sep rest

/-! ## package net/http -/

namespace http

/-- Go's `http.Header`, a map from (canonical) field names to the list of their values. -/
abbrev Header := List (String × List String)

/-- Go's `Header.Get`: the first value of the field, or `""` when there is none. -/
def Header.Get (h : Header) (key : String) : String :=
  match h.lookup key with
  | some (v :: _) => v
  | _ => ""

/-- Go's `Header.Add`: append a value to the values of the field. -/
def Header.Add : Header → String → String → Header
  | [], key, value => [(key, [value])]
  | (k, vs) :: rest, key, value =>
    if k = key then (k, vs ++ [value]) :: rest else (k, vs) :: Header.Add rest key value

/-- The part of `http.Request` the handler reads. -/
structure Request where
  Method : String
  URL : String
  Header : Header
deriving DecidableEq, Repr

/-- Go's `http.ResponseWriter`.  `header` is the map `Header()` returns; `WriteHeader`
commits a status code together with the header fields as they are at that moment
(`sentHeader`), so that a change made to `header` afterwards is not part of the
response; `body` is what `Write` has written. -/
structure ResponseWriter where
  header : Header
  wroteHeader : Bool
  status : Nat
  sentHeader : Header
  body : String
deriving DecidableEq, Repr

/-- Go's `http.StatusForbidden`. -/
def StatusForbidden : Nat := 403

/-- Go's `http.StatusOK`. -/
def StatusOK : Nat := 200

/-- Go's `ResponseWriter.WriteHeader`: the first call commits the status code and a
snapshot of the header map; a later call changes nothing. -/
def ResponseWriter.WriteHeader (w : ResponseWriter) (statusCode : Nat) : ResponseWriter :=
  if w.wroteHeader then w
  else { w with wroteHeader := true, status := statusCode, sentHeader := w.header }

/-- The call `w.Header().Add(key, value)`: it changes the header map only. -/
def ResponseWriter.HeaderAdd (w : ResponseWriter) (key value : String) : ResponseWriter :=
  { w with header := Header.Add w.header key value }

/-- Go's `ResponseWriter.Write`: calls `WriteHeader(http.StatusOK)` first when no
header was written yet, then appends to the body.  (A first `Write` on a writer with
neither a written header nor a `Content-Type` field also sets that field from the
data; this is left out, since every `Write` here follows a `WriteHeader` or a set
`Content-Type`.) -/
def ResponseWriter.Write (w : ResponseWriter) (data : String) : ResponseWriter :=
  let w1 := if w.wroteHeader then w else w.WriteHeader StatusOK
  { w1 with body := w1.body ++ data }

/-- A downstream `http.Handler`, as what its `ServeHTTP` does to the response writer. -/
abbrev Handler := ResponseWriter → Request → ResponseWriter

/-- What one run of a middleware acts on: the response writer, and the record of the
requests it has handed to the downstream handler, in order. -/
structure State where
  w : ResponseWriter
  served : List Request
deriving DecidableEq, Repr

/-- The call `next.ServeHTTP(w, r)`, recorded in `served`. -/
def ServeHTTP (next : Handler) (s : State) (r : Request) : State :=
  { w := next s.w r, served := s.served ++ [r] }

end http

/-! ## package encoding/json -/

namespace json

/-- A hexadecimal digit. -/
def hexDigit (n : Nat) : Char :=
  if n < 10 then Char.ofNat (48 + n) else Char.ofNat (87 + n)

/-- How the encoder writes one character of a string (HTML escaping on, as
`json.NewEncoder` has it; control characters without a short form as `\u00XX`). -/
def escapeChar (c : Char) : List Char :=
  if c = Char.ofNat 34 then [Char.ofNat 92, Char.ofNat 34]
  else if c = Char.ofNat 92 then [Char.ofNat 92, Char.ofNat 92]
  else if c = Char.ofNat 10 then [Char.ofNat 92, Char.ofNat 110]
  else if c = Char.ofNat 13 then [Char.ofNat 92, Char.ofNat 114]
  else if c = Char.ofNat 9 then [Char.ofNat 92, Char.ofNat 116]
  else if c.toNat < 32 ∨ c = Char.ofNat 60 ∨ c = Char.ofNat 62 ∨ c = Char.ofNat 38 then
    [Char.ofNat 92, Char.ofNat 117, Char.ofNat 48, Char.ofNat 48,
      hexDigit (c.toNat / 16), hexDigit (c.toNat % 16)]
  else if c.toNat = 8232 then [Char.ofNat 92, Char.ofNat 117] ++ "2028".data
  else if c.toNat = 8233 then [Char.ofNat 92, Char.ofNat 117] ++ "2029".data
  else [c]

/-- A string as a JSON string literal. -/
def quote (s : String) : String :=
  "\"" ++ String.mk (s.data.flatMap escapeChar) ++ "\""

/-- The members of a JSON object, comma separated. -/
def members : List (String × String) → String
  | [] => ""
  | [(k, v)] => quote k ++ ":" ++ quote v
  | (k, v) :: rest => quote k ++ ":" ++ quote v ++ "," ++ members rest

/-- The text `json.NewEncoder(w).Encode(data)` writes for a map whose values are
strings: the object, then a newline.  (The encoder writes the keys in sorted order;
the maps encoded here have one key.) -/
def Encode (data : List (String × String)) : String :=
  "\x7b" ++ members data ++ "\x7d\n"

end json

/-! ## package github.com/dgrijalva/jwt-go -/

namespace jwt

/-- A byte string. -/
abbrev Bytes := List Nat

/-- The conversion `[]byte(s)`. -/
def bytes (s : String) : Bytes :=
  s.data.flatMap (fun c => (String.utf8EncodeChar c).map UInt8.toNat)

/-- A decoded JSON value (`interface{}`): a string, or anything else, kept with the
text `%v` prints for it. -/
inductive Value where
  | string (s : String)
  | other (printed : String)
deriving DecidableEq, Repr

/-- The verb `%v` of package fmt applied to a map entry that may be missing. -/
def formatV : Option Value → String
  | none => "<nil>"
  | some (Value.string s) => s
  | some (Value.other printed) => printed

/-- The signing methods jwt-go registers, by their Go type. -/
inductive SigningMethod where
  | HMAC (Name : String)
  | RSA (Name : String)
  | RSAPSS (Name : String)
  | ECDSA (Name : String)
  | unsecured
deriving DecidableEq, Repr

/-- jwt-go's `GetSigningMethod`: the method registered under the name, if any. -/
def GetSigningMethod (alg : String) : Option SigningMethod :=
  if alg = "HS256" ∨ alg = "HS384" ∨ alg = "HS512" then some (SigningMethod.HMAC alg)
  else if alg = "RS256" ∨ alg = "RS384" ∨ alg = "RS512" then some (SigningMethod.RSA alg)
  else if alg = "PS256" ∨ alg = "PS384" ∨ alg = "PS512" then some (SigningMethod.RSAPSS alg)
  else if alg = "ES256" ∨ alg = "ES384" ∨ alg = "ES512" then some (SigningMethod.ECDSA alg)
  else if alg = "none" then some SigningMethod.unsecured
  else none

/-- jwt-go's `Token`.  `Method` is `none` as long as it is the nil interface. -/
structure Token where
  Raw : String
  Method : Option SigningMethod
  Header : List (String × Value)
  Claims : List (String × Value)
  Signature : String
  Valid : Bool
deriving DecidableEq, Repr

/-- jwt-go's `ValidationError`; of the wrapped error `Inner` only its text is kept. -/
structure ValidationError where
  Inner : Option String
  Errors : Nat
  text : String
deriving DecidableEq, Repr

def ValidationErrorMalformed : Nat := 1
def ValidationErrorUnverifiable : Nat := 2
def ValidationErrorSignatureInvalid : Nat := 4

/-- jwt-go's `NewValidationError`. -/
def NewValidationError (errorText : String) (errorFlags : Nat) : ValidationError :=
  { Inner := none, Errors := errorFlags, text := errorText }

/-- jwt-go's `ValidationError.Error`. -/
def ValidationError.Error (e : ValidationError) : String :=
  match e.Inner with
  | some inner => inner
  | none => if e.text ≠ "" then e.text else "token is invalid"

/-- jwt-go's `ValidationError.valid`: no error flag is set. -/
def ValidationError.valid (e : ValidationError) : Bool :=
  e.Errors == 0

/-- A Go `error` as a key function may return it. -/
inductive Error where
  | errorString (text : String)
  | validation (e : ValidationError)
deriving DecidableEq, Repr

/-- A key as a key function may return it (`interface{}`): a byte slice or not. -/
inductive Key where
  | byteSlice (b : Bytes)
  | other
deriving DecidableEq, Repr

/-- jwt-go's `Keyfunc`. -/
abbrev Keyfunc := Token → Except Error Key

/-- What `Parse` returns: `(token, nil)`, or an error with a token that may be nil. -/
inductive ParseResult where
  | ok (token : Token)
  | fail (token : Option Token) (err : ValidationError)
deriving DecidableEq, Repr

/-- The operations underneath `Parse`, each with the text of its error when it fails:
`DecodeSegment` (base64url), `json.Unmarshal` of the header, the JSON decoder of the
claims, `MapClaims.Valid` at the time of the request, `crypto.Hash.Available` and the
HMAC of a message under a key for the hash of a method name, and `Verify` of the
methods that are not HMAC. -/
structure Primitives where
  DecodeSegment : String → Except String Bytes
  UnmarshalHeader : Bytes → Except String (List (String × Value))
  DecodeClaims : Bytes → Except String (List (String × Value))
  ClaimsValid : List (String × Value) → Option ValidationError
  HashAvailable : String → Bool
  MAC : String → Bytes → Bytes → Bytes
  VerifyOther : SigningMethod → String → String → Key → Option String

/-- jwt-go's `SigningMethodHMAC.Verify`, and `Verify` of the other methods: `none`
when the signature is good, otherwise the text of the error. -/
def SigningMethod.Verify (P : Primitives) (m : SigningMethod)
    (signingString signature : String) (key : Key) : Option String :=
  match m with
  | SigningMethod.HMAC name =>
    match key with
    | Key.other => some "key is of invalid type"
    | Key.byteSlice keyBytes =>
      match P.DecodeSegment signature with
      | Except.error err => some err
      | Except.ok sig =>
        if P.HashAvailable name = false then some "the requested hash function is unavailable"
        else if sig ≠ P.MAC name keyBytes (bytes signingString) then some "signature is invalid"
        else none
  | other => P.VerifyOther other signingString signature key

/-- jwt-go's `Parse(tokenString, keyFunc)`, that is `ParseWithClaims` of a parser with
no option set and `MapClaims`: split into three segments, decode header and claims,
look the signing method up, ask `keyFunc` for the key, validate the claims, verify the
signature. -/
def Parse (P : Primitives) (tokenString : String) (keyFunc : Keyfunc) : ParseResult :=
  match strings.Split tokenString "." with
  | [part0, part1, part2] =>
    let token : Token :=
      { Raw := tokenString, Method := none, Header := [], Claims := [],
        Signature := "", Valid := false }
    match P.DecodeSegment part0 with
    | Except.error err =>
      if strings.HasPrefix (strings.ToLower tokenString) "bearer " then
        ParseResult.fail (some token)
          (NewValidationError "tokenstring should not contain 'bearer '" ValidationErrorMalformed)
      else
        ParseResult.fail (some token)
          { Inner := some err, Errors := ValidationErrorMalformed, text := "" }
    | Except.ok headerBytes =>
      match P.UnmarshalHeader headerBytes with
      | Except.error err =>
        ParseResult.fail (some token)
          { Inner := some err, Errors := ValidationErrorMalformed, text := "" }
      | Except.ok header =>
        let token1 := { token with Header := header }
        match P.DecodeSegment part1 with
        | Except.error err =>
          ParseResult.fail (some token1)
            { Inner := some err, Errors := ValidationErrorMalformed, text := "" }
        | Except.ok claimBytes =>
          match P.DecodeClaims claimBytes with
          | Except.error err =>
            ParseResult.fail (some token1)
              { Inner := some err, Errors := ValidationErrorMalformed, text := "" }
          | Except.ok claims =>
            let token2 := { token1 with Claims := claims }
            match header.lookup "alg" with
            | some (Value.string alg) =>
              match GetSigningMethod alg with
              | none =>
                ParseResult.fail (some token2)
                  (NewValidationError "signing method (alg) is unavailable."
                    ValidationErrorUnverifiable)
              | some method =>
                let token3 := { token2 with Method := some method }
                match keyFunc token3 with
                | Except.error (Error.validation ve) => ParseResult.fail (some token3) ve
                | Except.error (Error.errorString text) =>
                  ParseResult.fail (some token3)
                    { Inner := some text, Errors := ValidationErrorUnverifiable, text := "" }
                | Except.ok key =>
                  let vErr : ValidationError :=
                    match P.ClaimsValid token3.Claims with
                    | some e => e
                    | none => { Inner := none, Errors := 0, text := "" }
                  let token4 := { token3 with Signature := part2 }
                  let vErr1 : ValidationError :=
                    match method.Verify P (part0 ++ "." ++ part1) token4.Signature key with
                    | some err =>
                      { vErr with Inner := some err,
                                  Errors := vErr.Errors ||| ValidationErrorSignatureInvalid }
                    | none => vErr
                  if vErr1.valid then ParseResult.ok { token4 with Valid := true }
                  else ParseResult.fail (some token4) vErr1
            | _ =>
              ParseResult.fail (some token2)
                (NewValidationError "signing method (alg) is unspecified."
                  ValidationErrorUnverifiable)
  | _ =>
    ParseResult.fail none
      (NewValidationError "token contains an invalid number of segments"
        ValidationErrorMalformed)

end jwt

/-! ## package jwtmiddleware -/

open http

/-- `Message`: the map with the one key `"message"`. -/
def Message (message : String) : List (String × String) :=
  [("message", message)]

/-- `Respond`: `WriteHeader(status)`, then `Header().Add("Content-Type", ...)`, then the
JSON encoding of `data` written to `w`. -/
def Respond (w : ResponseWriter) (status : Nat) (data : List (String × String)) :
    ResponseWriter :=
  let w1 := w.WriteHeader status
  let w2 := w1.HeaderAdd "Content-Type" "application/json"
  w2.Write (json.Encode data)

/-- The key function `JwtMiddleware` passes to `jwt.Parse`: the secret
`os.Getenv("token_password")` for a token whose method is of the HMAC type, otherwise
an error that names the `alg` field of the token header. -/
def keyFunc (getenv : String → String) : jwt.Keyfunc := fun token =>
  match token.Method with
  | some (jwt.SigningMethod.HMAC _) =>
    Except.ok (jwt.Key.byteSlice (jwt.bytes (getenv "token_password")))
  | _ =>
    Except.error (jwt.Error.errorString
      ("Unexpected signing method: " ++ jwt.formatV (token.Header.lookup "alg") ++ "."))

/-- `JwtMiddleware(next)`, the handler it returns run on a response writer and a
request.  `parse` stands for `jwt.Parse` and `getenv` for `os.Getenv`. -/
def JwtMiddleware (parse : String → jwt.Keyfunc → jwt.ParseResult)
    (getenv : String → String) (next : Handler) (s : State) (r : Request) : State :=
  let authHeader := r.Header.Get "Authorization"
  if authHeader = "" then
    { s with w := Respond s.w StatusForbidden (Message "Missing auth token.") }
  else
    match strings.Split authHeader "Bearer " with
    | [_, authToken] =>
      match parse authToken (keyFunc getenv) with
      | jwt.ParseResult.fail _ err =>
        { s with
          w := Respond s.w StatusForbidden
                 (Message ("Malformed authorization token. " ++ err.Error)) }
      | jwt.ParseResult.ok token =>
        if token.Valid = false then
          { s with
            w := Respond s.w StatusForbidden (Message "Authorization token is not valid.") }
        else ServeHTTP next s r
    | _ =>
      { s with
        w := Respond s.w StatusForbidden
               (Message
                 "Invalid/Malformed auth token. Authorization Header must contain Bearer token.") }

/-! ## The test suite's fixtures (`jwt_middleware_test.go`) -/

/-- Go's `Header.Set`: replace the values of the field by the one value. -/
def http.Header.Set : Header → String → String → Header
  | [], key, value => [(key, [value])]
  | (k, vs) :: rest, key, value =>
    if k = key then (k, [value]) :: rest else (k, vs) :: http.Header.Set rest key value

/-- `responseJson` of the test suite: the field `Content-Type` is set, then the JSON
text of `Response{message}` is written. -/
def responseJson (message : String) (w : ResponseWriter) : ResponseWriter :=
  let jsonResponse := "\x7b\"message\":" ++ json.quote message ++ "\x7d"
  let w1 := { w with header := http.Header.Set w.header "Content-Type" "application/json" }
  w1.Write jsonResponse

/-- `protectedHandler` of the test suite. -/
def protectedHandler : Handler := fun w _ =>
  responseJson "got through protection" w

/-- `makeAuthenticatedReqest` of the test suite: the request, with the field
`Authorization` set when a token is given. -/
def makeAuthenticatedReqest (method url : String) (token : Option String) : Request :=
  match token with
  | some t => { Method := method, URL := url, Header := [("Authorization", [t])] }
  | none => { Method := method, URL := url, Header := [] }

/-- `makeUnauthenticatedRequest` of the test suite. -/
def makeUnauthenticatedRequest (method url : String) : Request :=
  makeAuthenticatedReqest method url none

/-- `httptest.NewRecorder()`: nothing written yet. -/
def NewRecorder : ResponseWriter :=
  { header := [], wroteHeader := false, status := 200, sentHeader := [], body := "" }

/-- The state a test starts a request in. -/
def start : State :=
  { w := NewRecorder, served := [] }

/-- The environment of the test suite: `os.Setenv("token_password", "this is a test")`. -/
def testGetenv (key : String) : String :=
  if key = "token_password" then "this is a test" else ""

/-- `tokenString(jwt.SigningMethodHS256)` of the test suite: the token with header
`{"alg":"HS256","typ":"JWT"}` and claims `{}`, signed with HMAC-SHA256 under
`"this is a test"`. -/
def tokenString : String :=
  "eyJhbGciOiJIUzI1NiIsInR5cCI6IkpXVCJ9.e30.yQR3GiOFz0wExE8QaXboxqgsV7wHZk4CfwjyrexkQRw"

/-- A token with header `{"alg":"HS256","typ":"JWT"}` and claims `{"exp":1}`, signed
with HMAC-SHA256 under `"this is a test"`: well formed, well signed, and expired. -/
def expiredTokenString : String :=
  "eyJhbGciOiJIUzI1NiIsInR5cCI6IkpXVCJ9.eyJleHAiOjF9." ++
    "3Sl1v2eYy63T6BIXtjIONQ8tiZNxQMdTrEa2G3_9iPw"

/-- The first two segments of the RS256 token of the test suite: header
`{"typ":"JWT","alg":"RS256"}` and claims `{"foo":"bar"}`. -/
def rs256SigningString : String :=
  "eyJ0eXAiOiJKV1QiLCJhbGciOiJSUzI1NiJ9.eyJmb28iOiJiYXIifQ"

/-- The signature segment of the RS256 token of the third test of the suite. -/
def rs256Signature : String :=
  "FhkiHkoESI_cG3NPigFrxEk9Z60_oXrOT2vGm9Pn6RDgYNovYORQmmA0zs1AoAOf09ly2Nx2YAg6ABqA" ++
    "Yga1AcMFkJljwxTT5fYphTuqpWdy4BELeSYJx5Ty2gmr8e7RonuUztrdD5WfPqLKMm1Ozp_T6zALpRmw" ++
    "TIW0QPnaBXaQD90FplAg46Iy1UlDKr-Eupy0i5SLch5Q-p2ZpaL_5fnTIUDlxC3pWhJTyx_71qDI-mAA" ++
    "_5lE_VdroOeflG56sSmDxopPEG3bFlSu1eowyBfxtu0_CuVd-M42RU75Zc4Gsj6uV77MBtbMrf4_7M_N" ++
    "UTSgoIF3fRqxrj0NzihIBg"

/-- The RS256 token of the third test of the suite. -/
def rs256TokenString : String :=
  rs256SigningString ++ "." ++ rs256Signature

/-- The values the operations underneath `jwt.Parse` take on the segments of the
tokens above, as a table; a segment or text outside the table is answered with an
error, a message outside the table with the empty code. -/
def testPrimitives : jwt.Primitives where
  DecodeSegment := fun seg =>
    if seg = "eyJhbGciOiJIUzI1NiIsInR5cCI6IkpXVCJ9" then
      Except.ok (jwt.bytes "\x7b\"alg\":\"HS256\",\"typ\":\"JWT\"\x7d")
    else if seg = "eyJ0eXAiOiJKV1QiLCJhbGciOiJSUzI1NiJ9" then
      Except.ok (jwt.bytes "\x7b\"typ\":\"JWT\",\"alg\":\"RS256\"\x7d")
    else if seg = "eyJhbGciOiJFZERTQSIsInR5cCI6IkpXVCJ9" then
      Except.ok (jwt.bytes "\x7b\"alg\":\"EdDSA\",\"typ\":\"JWT\"\x7d")
    else if seg = "e30" then Except.ok (jwt.bytes "\x7b\x7d")
    else if seg = "eyJmb28iOiJiYXIifQ" then Except.ok (jwt.bytes "\x7b\"foo\":\"bar\"\x7d")
    else if seg = "eyJleHAiOjF9" then Except.ok (jwt.bytes "\x7b\"exp\":1\x7d")
    else if seg = "yQR3GiOFz0wExE8QaXboxqgsV7wHZk4CfwjyrexkQRw" then
      Except.ok [201, 4, 119, 26, 35, 133, 207, 76, 4, 196, 79, 16, 105, 118, 232, 198,
        168, 44, 87, 188, 7, 102, 78, 2, 127, 8, 242, 173, 236, 100, 65, 28]
    else if seg = "3Sl1v2eYy63T6BIXtjIONQ8tiZNxQMdTrEa2G3_9iPw" then
      Except.ok [221, 41, 117, 191, 103, 152, 203, 173, 211, 232, 18, 23, 182, 50, 14, 53,
        15, 45, 137, 147, 113, 64, 199, 83, 172, 70, 182, 27, 127, 253, 136, 252]
    else Except.error "illegal base64 data at input byte 0"
  UnmarshalHeader := fun b =>
    if b = jwt.bytes "\x7b\"alg\":\"HS256\",\"typ\":\"JWT\"\x7d" then
      Except.ok [("alg", jwt.Value.string "HS256"), ("typ", jwt.Value.string "JWT")]
    else if b = jwt.bytes "\x7b\"typ\":\"JWT\",\"alg\":\"RS256\"\x7d" then
      Except.ok [("typ", jwt.Value.string "JWT"), ("alg", jwt.Value.string "RS256")]
    else if b = jwt.bytes "\x7b\"alg\":\"EdDSA\",\"typ\":\"JWT\"\x7d" then
      Except.ok [("alg", jwt.Value.string "EdDSA"), ("typ", jwt.Value.string "JWT")]
    else Except.error "unexpected end of JSON input"
  DecodeClaims := fun b =>
    if b = jwt.bytes "\x7b\x7d" then Except.ok []
    else if b = jwt.bytes "\x7b\"foo\":\"bar\"\x7d" then
      Except.ok [("foo", jwt.Value.string "bar")]
    else if b = jwt.bytes "\x7b\"exp\":1\x7d" then Except.ok [("exp", jwt.Value.other "1")]
    else Except.error "unexpected EOF"
  ClaimsValid := fun claims =>
    if claims.lookup "exp" = some (jwt.Value.other "1") then
      some { Inner := some "Token is expired", Errors := 16, text := "" }
    else none
  HashAvailable := fun name => name = "HS256" ∨ name = "HS384" ∨ name = "HS512"
  MAC := fun name key message =>
    if name = "HS256" ∧ key = jwt.bytes "this is a test" ∧
        message = jwt.bytes "eyJhbGciOiJIUzI1NiIsInR5cCI6IkpXVCJ9.e30" then
      [201, 4, 119, 26, 35, 133, 207, 76, 4, 196, 79, 16, 105, 118, 232, 198,
        168, 44, 87, 188, 7, 102, 78, 2, 127, 8, 242, 173, 236, 100, 65, 28]
    else if name = "HS256" ∧ key = jwt.bytes "this is a test" ∧
        message = jwt.bytes "eyJhbGciOiJIUzI1NiIsInR5cCI6IkpXVCJ9.eyJleHAiOjF9" then
      [221, 41, 117, 191, 103, 152, 203, 173, 211, 232, 18, 23, 182, 50, 14, 53,
        15, 45, 137, 147, 113, 64, 199, 83, 172, 70, 182, 27, 127, 253, 136, 252]
    else []
  VerifyOther := fun _ _ _ _ => some "key is of invalid type"

/-! ## Observations the statements are made of -/

/-- The signature segment of a three-segment token decodes to the HMAC, for the hash its
header names, of its first two segments under `secret`.  (Stated from the wording of the
specification: "recompute the signature over header+payload using VerificationSecret and
the accepted algorithm; compare to the token's signature segment".) -/
def signatureMatches (P : jwt.Primitives) (secret tokenString : String) : Bool :=
  match strings.Split tokenString "." with
  | [part0, part1, part2] =>
    match P.DecodeSegment part0 with
    | Except.ok headerBytes =>
      match P.UnmarshalHeader headerBytes with
      | Except.ok header =>
        match header.lookup "alg" with
        | some (jwt.Value.string alg) =>
          match P.DecodeSegment part2 with
          | Except.ok sig =>
            sig == P.MAC alg (jwt.bytes secret) (jwt.bytes (part0 ++ "." ++ part1))
          | Except.error _ => false
        | _ => false
      | Except.error _ => false
    | Except.error _ => false
  | _ => false

/-- The run from `s` to `s1` was a rejection with `message`: status 403 was committed,
the JSON object with the one key `"message"` (and a newline) was appended to the body,
and no request was handed to the downstream handler. -/
def RejectedWith (s s1 : State) (message : String) : Prop :=
  s1.w.status = 403 ∧
  s1.w.body = s.w.body ++ ("\x7b\"message\":" ++ json.quote message ++ "\x7d\n") ∧
  s1.served = s.served

/-- The run from `s` to `s1` handed `r` to the downstream handler `next` exactly once,
and the response writer is what `next` made of the one the gate was given. -/
def PassedOn (next : Handler) (s s1 : State) (r : Request) : Prop :=
  s1.served = s.served ++ [r] ∧ s1.w = next s.w r

/-! ## Lemmas on `strings.Split` -/

namespace strings

theorem consHead_length (c : Char) (l : List (List Char)) (h : l ≠ []) :
    (consHead c l).length = l.length := by
  cases l with
  | nil => exact absurd rfl h
  | cons piece pieces => rfl

theorem splitFrom_ne_nil (sep : List Char) : ∀ (s : List Char) (k : Nat),
    splitFrom sep k s ≠ [] := by
  intro s
  induction s with
  | nil => intro k; cases k <;> simp [splitFrom]
  | cons c rest ih =>
    intro k
    cases k with
    | succ k => simpa [splitFrom] using ih k
    | zero =>
      unfold splitFrom
      split
      · simp
      · have h0 := ih 0
        cases hX : splitFrom sep 0 rest with
        | nil => exact absurd hX h0
        | cons piece pieces => simp [consHead]

/-- Passing over the rest of a matched separator. -/
theorem splitFrom_skip (sep : List Char) : ∀ (xs ys : List Char),
    splitFrom sep xs.length (xs ++ ys) = splitFrom sep 0 ys := by
  intro xs
  induction xs with
  | nil => intro ys; rfl
  | cons x xs ih => intro ys; simpa [splitFrom] using ih ys

/-- At an occurrence of the separator a new piece starts behind it. -/
theorem splitFrom_match (a : Char) (sep1 t : List Char) :
    splitFrom (a :: sep1) 0 ((a :: sep1) ++ t) = [] :: splitFrom (a :: sep1) 0 t := by
  have hp : (a :: sep1).isPrefixOf (a :: (sep1 ++ t)) = true := by
    rw [List.isPrefixOf_iff_prefix]
    exact ⟨t, rfl⟩
  have hs := splitFrom_skip (a :: sep1) sep1 t
  show splitFrom (a :: sep1) 0 (a :: (sep1 ++ t)) = [] :: splitFrom (a :: sep1) 0 t
  rw [splitFrom, if_pos hp]
  simp only [List.length_cons, Nat.add_sub_cancel]
  rw [hs]

theorem splitFrom_no_match (sep : List Char) (c : Char) (rest : List Char)
    (h : sep.isPrefixOf (c :: rest) = false) :
    splitFrom sep 0 (c :: rest) = consHead c (splitFrom sep 0 rest) := by
  simp [splitFrom, h]

theorem isPrefixOf_cons_ne (a x : Char) (sep1 l : List Char) (h : x ≠ a) :
    (a :: sep1).isPrefixOf (x :: l) = false := by
  have hax : (a == x) = false := by
    rw [beq_eq_false_iff_ne]
    exact fun e => h e.symm
  simp [List.isPrefixOf, hax]

/-- No occurrence of the separator starts inside a text free of its first character. -/
theorem occurrences_skip (a : Char) (sep1 t : List Char) : ∀ xs : List Char, a ∉ xs →
    occurrences (a :: sep1) (xs ++ t) = occurrences (a :: sep1) t := by
  intro xs
  induction xs with
  | nil => intro _; rfl
  | cons x xs ih =>
    intro h
    have hx : x ≠ a := fun e => h (by simp [e])
    have hxs : a ∉ xs := fun e => h (List.mem_cons_of_mem _ e)
    show occurrences (a :: sep1) (x :: (xs ++ t)) = occurrences (a :: sep1) t
    rw [occurrences, isPrefixOf_cons_ne a x sep1 _ hx, ih hxs]
    simp

theorem occurrences_match (a : Char) (sep1 t : List Char) (h : a ∉ sep1) :
    occurrences (a :: sep1) ((a :: sep1) ++ t) = occurrences (a :: sep1) t + 1 := by
  have hp : (a :: sep1).isPrefixOf (a :: (sep1 ++ t)) = true := by
    rw [List.isPrefixOf_iff_prefix]
    exact ⟨t, rfl⟩
  show occurrences (a :: sep1) (a :: (sep1 ++ t)) = occurrences (a :: sep1) t + 1
  rw [occurrences, if_pos hp, occurrences_skip a sep1 t sep1 h]
  omega

theorem splitFrom_length_aux (a : Char) (sep1 : List Char) (h : a ∉ sep1) :
    ∀ (n : Nat) (s : List Char), s.length ≤ n →
      (splitFrom (a :: sep1) 0 s).length = occurrences (a :: sep1) s + 1 := by
  intro n
  induction n with
  | zero =>
    intro s hs
    have : s = [] := List.length_eq_zero.mp (Nat.le_zero.mp hs)
    subst this
    simp [splitFrom, occurrences, List.isPrefixOf]
  | succ n ih =>
    intro s hs
    cases s with
    | nil => simp [splitFrom, occurrences, List.isPrefixOf]
    | cons c rest =>
      cases hp : (a :: sep1).isPrefixOf (c :: rest) with
      | true =>
        obtain ⟨t, ht⟩ := List.isPrefixOf_iff_prefix.mp hp
        have hlen : t.length ≤ n := by
          have := congrArg List.length ht
          simp only [List.length_append, List.length_cons] at this hs
          omega
        rw [← ht, splitFrom_match, occurrences_match a sep1 t h, List.length_cons,
          ih t hlen]
      | false =>
        have hlen : rest.length ≤ n := by
          simp only [List.length_cons] at hs
          omega
        rw [splitFrom_no_match _ _ _ hp,
          consHead_length _ _ (splitFrom_ne_nil _ _ _), ih rest hlen, occurrences, hp]
        simp

/-- Splitting at a separator whose first character does not come back in it gives one
piece more than the separator has occurrences. -/
theorem splitFrom_length (a : Char) (sep1 : List Char) (h : a ∉ sep1) (s : List Char) :
    (splitFrom (a :: sep1) 0 s).length = occurrences (a :: sep1) s + 1 :=
  splitFrom_length_aux a sep1 h s.length s (Nat.le_refl _)

theorem splitFrom_single_aux (a : Char) (sep1 : List Char) :
    ∀ (n : Nat) (s q : List Char), s.length ≤ n →
      splitFrom (a :: sep1) 0 s = [q] → s = q := by
  intro n
  induction n with
  | zero =>
    intro s q hs hq
    have : s = [] := List.length_eq_zero.mp (Nat.le_zero.mp hs)
    subst this
    simpa [splitFrom] using hq
  | succ n ih =>
    intro s q hs hq
    cases s with
    | nil => simpa [splitFrom] using hq
    | cons c rest =>
      cases hp : (a :: sep1).isPrefixOf (c :: rest) with
      | true =>
        obtain ⟨t, ht⟩ := List.isPrefixOf_iff_prefix.mp hp
        rw [← ht, splitFrom_match] at hq
        have hnil : splitFrom (a :: sep1) 0 t = [] := by
          simpa using (List.cons.inj hq).2
        exact absurd hnil (splitFrom_ne_nil _ _ _)
      | false =>
        have hlen : rest.length ≤ n := by
          simp only [List.length_cons] at hs
          omega
        rw [splitFrom_no_match _ _ _ hp] at hq
        cases hX : splitFrom (a :: sep1) 0 rest with
        | nil => exact absurd hX (splitFrom_ne_nil _ _ _)
        | cons piece pieces =>
          rw [hX] at hq
          simp only [consHead, List.cons.injEq] at hq
          obtain ⟨hq1, hq2⟩ := hq
          subst hq2
          rw [ih rest piece hlen hX]
          exact hq1

/-- A text that splits into one piece is that piece. -/
theorem splitFrom_single (a : Char) (sep1 s q : List Char)
    (h : splitFrom (a :: sep1) 0 s = [q]) : s = q :=
  splitFrom_single_aux a sep1 s.length s q (Nat.le_refl _) h

theorem splitFrom_pair_aux (a : Char) (sep1 : List Char) :
    ∀ (n : Nat) (s p q : List Char), s.length ≤ n →
      splitFrom (a :: sep1) 0 s = [p, q] → s = p ++ (a :: sep1) ++ q := by
  intro n
  induction n with
  | zero =>
    intro s p q hs hq
    have : s = [] := List.length_eq_zero.mp (Nat.le_zero.mp hs)
    subst this
    simp [splitFrom] at hq
  | succ n ih =>
    intro s p q hs hq
    cases s with
    | nil => simp [splitFrom] at hq
    | cons c rest =>
      cases hp : (a :: sep1).isPrefixOf (c :: rest) with
      | true =>
        obtain ⟨t, ht⟩ := List.isPrefixOf_iff_prefix.mp hp
        rw [← ht, splitFrom_match] at hq
        simp only [List.cons.injEq] at hq
        obtain ⟨hq1, hq2⟩ := hq
        rw [← ht, ← hq1, splitFrom_single a sep1 t q hq2]
        simp
      | false =>
        have hlen : rest.length ≤ n := by
          simp only [List.length_cons] at hs
          omega
        rw [splitFrom_no_match _ _ _ hp] at hq
        cases hX : splitFrom (a :: sep1) 0 rest with
        | nil => exact absurd hX (splitFrom_ne_nil _ _ _)
        | cons piece pieces =>
          rw [hX] at hq
          simp only [consHead, List.cons.injEq] at hq
          obtain ⟨hq1, hq2⟩ := hq
          subst hq2
          rw [ih rest piece q hlen hX, ← hq1]
          simp

/-- A text that splits into two pieces is the first piece, the separator, and the
second piece. -/
theorem splitFrom_pair (a : Char) (sep1 s p q : List Char)
    (h : splitFrom (a :: sep1) 0 s = [p, q]) : s = p ++ (a :: sep1) ++ q :=
  splitFrom_pair_aux a sep1 s.length s p q (Nat.le_refl _) h

end strings

/-! ## Lemmas on the separator `"Bearer "` -/

theorem occurrences_eq_zero_of_not_mem (sep : List Char) (c : Char) (hc : c ∈ sep) :
    ∀ t : List Char, c ∉ t → occurrences sep t = 0 := by
  have hne : sep.isPrefixOf [] = false := by
    cases sep with
    | nil => simp at hc
    | cons a sep1 => rfl
  intro t
  induction t with
  | nil => intro _; simp [occurrences, hne]
  | cons x t ih =>
    intro h
    have ht : c ∉ t := fun e => h (List.mem_cons_of_mem _ e)
    have hp : sep.isPrefixOf (x :: t) = false := by
      cases hb : sep.isPrefixOf (x :: t) with
      | false => rfl
      | true =>
        obtain ⟨u, hu⟩ := List.isPrefixOf_iff_prefix.mp hb
        exact absurd (by rw [← hu]; exact List.mem_append_left _ hc) h
    rw [occurrences, hp, ih ht]
    simp

theorem Split_Bearer (h : String) :
    strings.Split h "Bearer " =
      (strings.splitFrom ("Bearer ".data) 0 h.data).map String.mk := rfl

theorem Bearer_data : "Bearer ".data = Char.ofNat 66 :: "earer ".data := rfl

theorem Bearer_first : Char.ofNat 66 ∉ "earer ".data := by decide

/-- `strings.Split(h, "Bearer ")` has one piece more than `"Bearer "` occurs in `h`. -/
theorem Split_Bearer_length (h : String) :
    (strings.Split h "Bearer ").length = occurrences "Bearer ".data h.data + 1 := by
  rw [Split_Bearer, List.length_map, Bearer_data]
  exact strings.splitFrom_length _ _ Bearer_first _

/-- Two pieces of `strings.Split(h, "Bearer ")` are what stands before and behind the
one occurrence. -/
theorem Split_Bearer_pair (h p q : String) (hs : strings.Split h "Bearer " = [p, q]) :
    h = p ++ "Bearer " ++ q := by
  rw [Split_Bearer, Bearer_data] at hs
  cases hX : strings.splitFrom (Char.ofNat 66 :: "earer ".data) 0 h.data with
  | nil => rw [hX] at hs; simp at hs
  | cons a l =>
    cases l with
    | nil => rw [hX] at hs; simp at hs
    | cons b l =>
      cases l with
      | cons c l => rw [hX] at hs; simp at hs
      | nil =>
        rw [hX] at hs
        simp only [List.map_cons, List.map_nil, List.cons.injEq, and_true] at hs
        have := strings.splitFrom_pair _ _ _ _ _ hX
        apply String.ext
        rw [String.data_append, String.data_append, ← hs.1, ← hs.2, this, Bearer_data]

/-- A header that is `"Bearer "` and a text free of `"Bearer "` splits into the empty
text and that text. -/
theorem Split_Bearer_of_prefixed (tok : String)
    (h0 : occurrences "Bearer ".data tok.data = 0) :
    strings.Split ("Bearer " ++ tok) "Bearer " = ["", tok] := by
  have hl := strings.splitFrom_length _ _ Bearer_first tok.data
  rw [← Bearer_data, h0] at hl
  have hone : strings.splitFrom "Bearer ".data 0 tok.data = [tok.data] := by
    cases hX : strings.splitFrom "Bearer ".data 0 tok.data with
    | nil => rw [hX] at hl; simp at hl
    | cons a l =>
      cases l with
      | cons b l => rw [hX] at hl; simp at hl
      | nil =>
        rw [Bearer_data] at hX
        rw [strings.splitFrom_single _ _ _ _ hX]
  rw [Split_Bearer, String.data_append]
  have hm := strings.splitFrom_match (Char.ofNat 66) "earer ".data tok.data
  rw [← Bearer_data] at hm
  rw [hm, hone]
  rfl

/-- A text without a blank holds no `"Bearer "`. -/
theorem occurrences_Bearer_of_no_blank (tok : String) (h : Char.ofNat 32 ∉ tok.data) :
    occurrences "Bearer ".data tok.data = 0 :=
  occurrences_eq_zero_of_not_mem _ (Char.ofNat 32) (by decide) _ h

/-! ## Lemmas on `Respond` and on the branches of `JwtMiddleware` -/

theorem Encode_Message (message : String) :
    json.Encode (Message message) = "\x7b\"message\":" ++ json.quote message ++ "\x7d\n" := by
  have hq : json.quote "message" = "\"message\"" := by decide
  have hl : "\x7b" ++ "\"message\"" ++ ":" = "\x7b\"message\":" := by decide
  simp only [json.Encode, Message, json.members, hq]
  rw [← hl]
  simp only [String.append_assoc]

theorem Respond_body (w : ResponseWriter) (status : Nat) (data : List (String × String)) :
    (Respond w status data).body = w.body ++ json.Encode data := by
  cases hw : w.wroteHeader <;>
    simp [Respond, ResponseWriter.Write, ResponseWriter.HeaderAdd,
      ResponseWriter.WriteHeader, hw]

theorem Respond_status (w : ResponseWriter) (status : Nat) (data : List (String × String))
    (hw : w.wroteHeader = false) : (Respond w status data).status = status := by
  simp [Respond, ResponseWriter.Write, ResponseWriter.HeaderAdd,
    ResponseWriter.WriteHeader, hw]

theorem Respond_sentHeader (w : ResponseWriter) (status : Nat)
    (data : List (String × String)) (hw : w.wroteHeader = false) :
    (Respond w status data).sentHeader = w.header := by
  simp [Respond, ResponseWriter.Write, ResponseWriter.HeaderAdd,
    ResponseWriter.WriteHeader, hw]

/-- A state that differs from `s` by one call of `Respond` with status 403 on a writer
whose header was not yet written is a rejection. -/
theorem rejectedWith_Respond (s : State) (message : String)
    (hw : s.w.wroteHeader = false) :
    RejectedWith s { s with w := Respond s.w StatusForbidden (Message message) } message := by
  refine ⟨?_, ?_, rfl⟩
  · exact Respond_status _ _ _ hw
  · show (Respond s.w StatusForbidden (Message message)).body = _
    rw [Respond_body, Encode_Message, String.append_assoc]

theorem JwtMiddleware_missing (parse : String → jwt.Keyfunc → jwt.ParseResult)
    (getenv : String → String) (next : Handler) (s : State) (r : Request)
    (h : r.Header.Get "Authorization" = "") :
    JwtMiddleware parse getenv next s r =
      { s with w := Respond s.w StatusForbidden (Message "Missing auth token.") } := by
  simp [JwtMiddleware, h]

theorem JwtMiddleware_scheme (parse : String → jwt.Keyfunc → jwt.ParseResult)
    (getenv : String → String) (next : Handler) (s : State) (r : Request)
    (h : r.Header.Get "Authorization" ≠ "")
    (hl : (strings.Split (r.Header.Get "Authorization") "Bearer ").length ≠ 2) :
    JwtMiddleware parse getenv next s r =
      { s with
        w := Respond s.w StatusForbidden
               (Message
                 "Invalid/Malformed auth token. Authorization Header must contain Bearer token.") } := by
  simp only [JwtMiddleware, if_neg h]
  split
  · rename_i heq
    rw [heq] at hl
    exact absurd rfl hl
  · rfl

theorem JwtMiddleware_token (parse : String → jwt.Keyfunc → jwt.ParseResult)
    (getenv : String → String) (next : Handler) (s : State) (r : Request)
    (p authToken : String)
    (h : r.Header.Get "Authorization" ≠ "")
    (hs : strings.Split (r.Header.Get "Authorization") "Bearer " = [p, authToken]) :
    JwtMiddleware parse getenv next s r =
      match parse authToken (keyFunc getenv) with
      | jwt.ParseResult.fail _ err =>
        { s with
          w := Respond s.w StatusForbidden
                 (Message ("Malformed authorization token. " ++ err.Error)) }
      | jwt.ParseResult.ok token =>
        if token.Valid = false then
          { s with
            w := Respond s.w StatusForbidden (Message "Authorization token is not valid.") }
        else ServeHTTP next s r := by
  simp only [JwtMiddleware, if_neg h, hs]

theorem String_append_left_cancel (a x y : String) (h : a ++ x = a ++ y) : x = y := by
  have hd := congrArg String.data h
  rw [String.data_append, String.data_append] at hd
  exact String.ext (List.append_cancel_left hd)

/-- Two messages that start with different characters, both written as they are, have
different encodings. -/
theorem Encode_Message_ne (m1 m2 : String) (c1 c2 : Char) (t1 t2 : List Char)
    (h1 : m1.data = c1 :: t1) (h2 : m2.data = c2 :: t2)
    (e1 : json.escapeChar c1 = [c1]) (e2 : json.escapeChar c2 = [c2]) (hne : c1 ≠ c2) :
    ("\x7b\"message\":" ++ json.quote m1 ++ "\x7d\n" : String) ≠
      "\x7b\"message\":" ++ json.quote m2 ++ "\x7d\n" := by
  intro h
  rw [String.append_assoc, String.append_assoc] at h
  have h3 := String_append_left_cancel _ _ _ h
  have hd := congrArg String.data h3
  simp only [json.quote, String.data_append, h1, h2, List.flatMap_cons, e1, e2,
    List.append_assoc, List.cons_append, List.nil_append] at hd
  simp only [List.cons.injEq, true_and] at hd
  exact hne hd.1

theorem Malformed_data (e : String) :
    ("Malformed authorization token. " ++ e).data =
      Char.ofNat 77 :: ("alformed authorization token. ".data ++ e.data) := by
  rw [String.data_append]
  rfl

/-- A rejection carries one message only, as far as the messages of the gate go: the
ones that start with `M` or `A` against the one that starts with `I`. -/
theorem RejectedWith_scheme_ne (s s1 : State) (m : String) (c : Char) (t : List Char)
    (hm : m.data = c :: t) (e : json.escapeChar c = [c]) (hc : c ≠ Char.ofNat 73)
    (h1 : s1.w.body = s.w.body ++ ("\x7b\"message\":" ++ json.quote m ++ "\x7d\n")) :
    ¬ RejectedWith s s1
      "Invalid/Malformed auth token. Authorization Header must contain Bearer token." := by
  intro h
  have hb := h.2.1
  rw [h1] at hb
  have := String_append_left_cancel _ _ _ hb
  exact Encode_Message_ne m _ c (Char.ofNat 73)
    t "nvalid/Malformed auth token. Authorization Header must contain Bearer token.".data
    hm rfl e (by decide) hc this

theorem Get_of_lookup_none (h : Header) (key : String) (hl : h.lookup key = none) :
    Header.Get h key = "" := by
  simp [Header.Get, hl]

/-- What the gate does once the field splits into two pieces is no rejection with the
malformed-scheme message. -/
theorem token_branch_not_scheme (parse : String → jwt.Keyfunc → jwt.ParseResult)
    (getenv : String → String) (next : Handler) (s : State) (r : Request)
    (authToken : String) :
    ¬ RejectedWith s
      (match parse authToken (keyFunc getenv) with
        | jwt.ParseResult.fail _ err =>
          { s with
            w := Respond s.w StatusForbidden
                   (Message ("Malformed authorization token. " ++ err.Error)) }
        | jwt.ParseResult.ok token =>
          if token.Valid = false then
            { s with
              w := Respond s.w StatusForbidden (Message "Authorization token is not valid.") }
          else ServeHTTP next s r)
      "Invalid/Malformed auth token. Authorization Header must contain Bearer token." := by
  cases hp : parse authToken (keyFunc getenv) with
  | fail t err =>
    simp only []
    apply RejectedWith_scheme_ne s _ ("Malformed authorization token. " ++ err.Error)
      (Char.ofNat 77) _ (Malformed_data _) (by decide) (by decide)
    show (Respond s.w StatusForbidden _).body = _
    rw [Respond_body, Encode_Message, String.append_assoc]
  | ok token =>
    simp only []
    cases hv : token.Valid with
    | false =>
      simp only [if_true]
      apply RejectedWith_scheme_ne s _ "Authorization token is not valid."
        (Char.ofNat 65) "uthorization token is not valid.".data rfl (by decide) (by decide)
      show (Respond s.w StatusForbidden _).body = _
      rw [Respond_body, Encode_Message, String.append_assoc]
    | true =>
      intro h
      have hs := congrArg List.length h.2.2
      simp [ServeHTTP] at hs

/-! ## Lemmas on `jwt.Parse` under the gate's key function -/

theorem Bearer_append_ne (tok : String) : "Bearer " ++ tok ≠ "" := by
  intro h
  have hd := congrArg String.data h
  rw [String.data_append, Bearer_data] at hd
  simp at hd

/-- The gate on a field that is `"Bearer "` and a text free of `"Bearer "`: the text goes
to the parser. -/
theorem JwtMiddleware_Bearer (parse : String → jwt.Keyfunc → jwt.ParseResult)
    (getenv : String → String) (next : Handler) (s : State) (r : Request) (tok : String)
    (hh : r.Header.Get "Authorization" = "Bearer " ++ tok)
    (h0 : occurrences "Bearer ".data tok.data = 0) :
    JwtMiddleware parse getenv next s r =
      match parse tok (keyFunc getenv) with
      | jwt.ParseResult.fail _ err =>
        { s with
          w := Respond s.w StatusForbidden
                 (Message ("Malformed authorization token. " ++ err.Error)) }
      | jwt.ParseResult.ok token =>
        if token.Valid = false then
          { s with
            w := Respond s.w StatusForbidden (Message "Authorization token is not valid.") }
        else ServeHTTP next s r := by
  apply JwtMiddleware_token parse getenv next s r "" tok
  · rw [hh]
    exact Bearer_append_ne tok
  · rw [hh]
    exact Split_Bearer_of_prefixed tok h0

theorem GetSigningMethod_HS (alg : String)
    (h : alg = "HS256" ∨ alg = "HS384" ∨ alg = "HS512") :
    jwt.GetSigningMethod alg = some (jwt.SigningMethod.HMAC alg) := by
  simp [jwt.GetSigningMethod, h]

theorem GetSigningMethod_HMAC (alg name : String)
    (h : jwt.GetSigningMethod alg = some (jwt.SigningMethod.HMAC name)) : name = alg := by
  unfold jwt.GetSigningMethod at h
  split at h
  · simpa using h.symm
  · split at h
    · simp at h
    · split at h
      · simp at h
      · split at h
        · simp at h
        · split at h <;> simp at h

theorem keyFunc_HMAC (getenv : String → String) (token : jwt.Token) (name : String)
    (h : token.Method = some (jwt.SigningMethod.HMAC name)) :
    keyFunc getenv token =
      Except.ok (jwt.Key.byteSlice (jwt.bytes (getenv "token_password"))) := by
  simp [keyFunc, h]

theorem keyFunc_not_HMAC (getenv : String → String) (token : jwt.Token)
    (h : ∀ name, token.Method ≠ some (jwt.SigningMethod.HMAC name)) :
    keyFunc getenv token =
      Except.error (jwt.Error.errorString
        ("Unexpected signing method: " ++ jwt.formatV (token.Header.lookup "alg") ++ ".")) := by
  unfold keyFunc
  split
  · rename_i name heq
    exact absurd heq (h name)
  · rfl

theorem Parse_segments (P : jwt.Primitives) (t : String) (keyFunc : jwt.Keyfunc)
    (h : (strings.Split t ".").length ≠ 3) :
    jwt.Parse P t keyFunc =
      jwt.ParseResult.fail none
        (jwt.NewValidationError "token contains an invalid number of segments"
          jwt.ValidationErrorMalformed) := by
  unfold jwt.Parse
  split
  · rename_i heq
    rw [heq] at h
    exact absurd rfl h
  · rfl

/-- The parser on a token whose segments decode and whose header names a registered
method: what it returns is decided by the key function, the claims and the signature. -/
theorem Parse_decoded (P : jwt.Primitives) (keyFunc : jwt.Keyfunc)
    (tok part0 part1 part2 alg : String) (m : jwt.SigningMethod)
    (headerBytes claimBytes : jwt.Bytes) (header claims : List (String × jwt.Value))
    (hparts : strings.Split tok "." = [part0, part1, part2])
    (hd0 : P.DecodeSegment part0 = Except.ok headerBytes)
    (hu : P.UnmarshalHeader headerBytes = Except.ok header)
    (halg : header.lookup "alg" = some (jwt.Value.string alg))
    (hd1 : P.DecodeSegment part1 = Except.ok claimBytes)
    (hc : P.DecodeClaims claimBytes = Except.ok claims)
    (hm : jwt.GetSigningMethod alg = some m) :
    jwt.Parse P tok keyFunc =
      match keyFunc { Raw := tok, Method := some m, Header := header, Claims := claims,
                      Signature := "", Valid := false } with
      | Except.error (jwt.Error.validation ve) =>
        jwt.ParseResult.fail
          (some { Raw := tok, Method := some m, Header := header, Claims := claims,
                  Signature := "", Valid := false }) ve
      | Except.error (jwt.Error.errorString text) =>
        jwt.ParseResult.fail
          (some { Raw := tok, Method := some m, Header := header, Claims := claims,
                  Signature := "", Valid := false })
          { Inner := some text, Errors := jwt.ValidationErrorUnverifiable, text := "" }
      | Except.ok key =>
        if (match m.Verify P (part0 ++ "." ++ part1) part2 key with
            | some err =>
              ({ (match P.ClaimsValid claims with
                  | some e => e
                  | none => { Inner := none, Errors := 0, text := "" }) with
                 Inner := some err,
                 Errors := (match P.ClaimsValid claims with
                  | some e => e
                  | none => { Inner := none, Errors := 0, text := "" }).Errors |||
                    jwt.ValidationErrorSignatureInvalid } : jwt.ValidationError)
            | none =>
              (match P.ClaimsValid claims with
                | some e => e
                | none => { Inner := none, Errors := 0, text := "" })).valid
        then
          jwt.ParseResult.ok
            { Raw := tok, Method := some m, Header := header, Claims := claims,
              Signature := part2, Valid := true }
        else
          jwt.ParseResult.fail
            (some { Raw := tok, Method := some m, Header := header, Claims := claims,
                    Signature := part2, Valid := false })
            (match m.Verify P (part0 ++ "." ++ part1) part2 key with
              | some err =>
                ({ (match P.ClaimsValid claims with
                    | some e => e
                    | none => { Inner := none, Errors := 0, text := "" }) with
                   Inner := some err,
                   Errors := (match P.ClaimsValid claims with
                    | some e => e
                    | none => { Inner := none, Errors := 0, text := "" }).Errors |||
                      jwt.ValidationErrorSignatureInvalid } : jwt.ValidationError)
              | none =>
                (match P.ClaimsValid claims with
                  | some e => e
                  | none => { Inner := none, Errors := 0, text := "" })) := by
  simp only [jwt.Parse, hparts, hd0, hu, halg, hd1, hc, hm]

theorem Verify_HMAC_none (P : jwt.Primitives) (alg signingString part2 : String)
    (keyBytes sig : jwt.Bytes)
    (hd2 : P.DecodeSegment part2 = Except.ok sig)
    (hav : P.HashAvailable alg = true)
    (hmac : sig = P.MAC alg keyBytes (jwt.bytes signingString)) :
    (jwt.SigningMethod.HMAC alg).Verify P signingString part2 (jwt.Key.byteSlice keyBytes) =
      none := by
  simp [jwt.SigningMethod.Verify, hd2, hav, ← hmac]

/-- A good verdict of `Verify` for an HMAC method under a byte-slice key means that the
signature segment decodes to the HMAC of the signing string. -/
theorem Verify_HMAC_inv (P : jwt.Primitives) (alg signingString part2 : String)
    (keyBytes : jwt.Bytes)
    (h : (jwt.SigningMethod.HMAC alg).Verify P signingString part2
      (jwt.Key.byteSlice keyBytes) = none) :
    ∃ sig, P.DecodeSegment part2 = Except.ok sig ∧
      sig = P.MAC alg keyBytes (jwt.bytes signingString) := by
  simp only [jwt.SigningMethod.Verify] at h
  split at h
  · simp at h
  · rename_i sig hsig
    split at h
    · simp at h
    · split at h
      · simp at h
      · rename_i hne
        exact ⟨sig, hsig, by simpa using hne⟩

theorem valid_or_cases (e : jwt.ValidationError) (err : String) :
    ({ e with Inner := some err,
              Errors := e.Errors ||| jwt.ValidationErrorSignatureInvalid } :
      jwt.ValidationError).valid = false := by
  simp only [jwt.ValidationError.valid, jwt.ValidationErrorSignatureInvalid]
  have h4 : (e.Errors ||| 4) ≠ 0 := by
    intro h0
    have := congrArg (fun n => n.testBit 2) h0
    simp only [Nat.testBit_lor, Nat.zero_testBit, Bool.or_eq_false_iff] at this
    exact absurd this.2 (by decide)
  simpa using h4

/-- Whatever the key function, a token the parser returns without an error is flagged
valid. -/
theorem Parse_ok_Valid (P : jwt.Primitives) (t : String) (keyFunc : jwt.Keyfunc)
    (token : jwt.Token) (h : jwt.Parse P t keyFunc = jwt.ParseResult.ok token) :
    token.Valid = true := by
  simp only [jwt.Parse] at h
  repeat' split at h
  all_goals first
    | (injection h with h; rw [← h])
    | (exact absurd h (by simp))

/-- Under the gate's key function, a token the parser returns without an error carries
a signature that matches under the secret. -/
theorem Parse_ok_signature (P : jwt.Primitives) (getenv : String → String) (t : String)
    (token : jwt.Token)
    (h : jwt.Parse P t (keyFunc getenv) = jwt.ParseResult.ok token) :
    signatureMatches P (getenv "token_password") t = true := by
  by_cases hlen : (strings.Split t ".").length = 3
  · obtain ⟨part0, part1, part2, hparts⟩ := List.length_eq_three.mp hlen
    cases hd0 : P.DecodeSegment part0 with
    | error err =>
      simp only [jwt.Parse, hparts, hd0] at h
      split at h <;> exact absurd h (by simp)
    | ok headerBytes =>
      cases hu : P.UnmarshalHeader headerBytes with
      | error err =>
        simp only [jwt.Parse, hparts, hd0, hu] at h
        exact absurd h (by simp)
      | ok header =>
        cases hd1 : P.DecodeSegment part1 with
        | error err =>
          simp only [jwt.Parse, hparts, hd0, hu, hd1] at h
          exact absurd h (by simp)
        | ok claimBytes =>
          cases hc : P.DecodeClaims claimBytes with
          | error err =>
            simp only [jwt.Parse, hparts, hd0, hu, hd1, hc] at h
            exact absurd h (by simp)
          | ok claims =>
            cases halg : header.lookup "alg" with
            | none =>
              simp only [jwt.Parse, hparts, hd0, hu, hd1, hc, halg] at h
              exact absurd h (by simp)
            | some v =>
              cases v with
              | other printed =>
                simp only [jwt.Parse, hparts, hd0, hu, hd1, hc, halg] at h
                exact absurd h (by simp)
              | string alg =>
                cases hm : jwt.GetSigningMethod alg with
                | none =>
                  simp only [jwt.Parse, hparts, hd0, hu, hd1, hc, halg, hm] at h
                  exact absurd h (by simp)
                | some m =>
                  rw [Parse_decoded P (keyFunc getenv) t part0 part1 part2 alg m headerBytes
                    claimBytes header claims hparts hd0 hu halg hd1 hc hm] at h
                  by_cases hH : ∃ name, m = jwt.SigningMethod.HMAC name
                  · obtain ⟨name, rfl⟩ := hH
                    have hname := GetSigningMethod_HMAC alg name hm
                    subst hname
                    rw [keyFunc_HMAC getenv _ name rfl] at h
                    simp only [] at h
                    cases hv : (jwt.SigningMethod.HMAC name).Verify P (part0 ++ "." ++ part1)
                        part2 (jwt.Key.byteSlice (jwt.bytes (getenv "token_password"))) with
                    | some err =>
                      rw [hv] at h
                      simp only [valid_or_cases] at h
                      exact absurd h (by simp)
                    | none =>
                      obtain ⟨sig, hd2, hmac⟩ := Verify_HMAC_inv P name _ part2 _ hv
                      simp [signatureMatches, hparts, hd0, hu, halg, hd2, ← hmac]
                  · have hk := keyFunc_not_HMAC getenv
                      { Raw := t, Method := some m, Header := header, Claims := claims,
                        Signature := "", Valid := false }
                      (fun name hn => hH ⟨name, by simpa using hn⟩)
                    rw [hk] at h
                    exact absurd h (by simp)
  · rw [Parse_segments P t _ hlen] at h
    exact absurd h (by simp)

/-- The two ways a run of the gate ends. -/
theorem JwtMiddleware_cases (parse : String → jwt.Keyfunc → jwt.ParseResult)
    (getenv : String → String) (next : Handler) (s : State) (r : Request) :
    JwtMiddleware parse getenv next s r = ServeHTTP next s r ∨
    ∃ message : String, JwtMiddleware parse getenv next s r =
      { s with w := Respond s.w StatusForbidden (Message message) } := by
  by_cases hget : r.Header.Get "Authorization" = ""
  · exact Or.inr ⟨_, JwtMiddleware_missing parse getenv next s r hget⟩
  · by_cases hl : (strings.Split (r.Header.Get "Authorization") "Bearer ").length = 2
    · obtain ⟨before, authToken, hs⟩ := List.length_eq_two.mp hl
      rw [JwtMiddleware_token parse getenv next s r before authToken hget hs]
      cases hp : parse authToken (keyFunc getenv) with
      | fail t err => exact Or.inr ⟨_, rfl⟩
      | ok token =>
        simp only []
        cases hv : token.Valid with
        | false =>
          simp only [if_true]
          exact Or.inr ⟨_, rfl⟩
        | true => exact Or.inl rfl
    · exact Or.inr ⟨_, JwtMiddleware_scheme parse getenv next s r hget hl⟩

/-! ## The claims -/

/-- C1: a request whose `Authorization` field is absent or empty is answered with
status 403 and the JSON body `{"message":"Missing auth token."}` (closed by the newline
the encoder ends every value with), and `next` is not invoked.  The response writer is
one on which no header was written before. -/
theorem missing_auth_token (parse : String → jwt.Keyfunc → jwt.ParseResult)
    (getenv : String → String) (next : Handler) (s : State) (r : Request)
    (hw : s.w.wroteHeader = false)
    (h : r.Header.lookup "Authorization" = none ∨ r.Header.Get "Authorization" = "") :
    RejectedWith s (JwtMiddleware parse getenv next s r) "Missing auth token." ∧
    (JwtMiddleware parse getenv next s r).w.body =
      s.w.body ++ "\x7b\"message\":\"Missing auth token.\"\x7d\n" := by
  have hget : r.Header.Get "Authorization" = "" := by
    rcases h with h | h
    · exact Get_of_lookup_none _ _ h
    · exact h
  have hr := rejectedWith_Respond s "Missing auth token." hw
  rw [JwtMiddleware_missing parse getenv next s r hget]
  refine ⟨hr, ?_⟩
  have hlit : ("\x7b\"message\":" ++ json.quote "Missing auth token." ++ "\x7d\n" : String) =
      "\x7b\"message\":\"Missing auth token.\"\x7d\n" := by decide
  rw [← hlit]
  exact hr.2.1

/-- C1 at the first test of the suite: the unauthenticated GET on a fresh recorder. -/
theorem missing_auth_token_test :
    start.w.wroteHeader = false ∧
    (makeUnauthenticatedRequest "GET" "/protected").Header.lookup "Authorization" = none ∧
    RejectedWith start
      (JwtMiddleware (jwt.Parse testPrimitives) testGetenv protectedHandler start
        (makeUnauthenticatedRequest "GET" "/protected")) "Missing auth token." ∧
    (JwtMiddleware (jwt.Parse testPrimitives) testGetenv protectedHandler start
        (makeUnauthenticatedRequest "GET" "/protected")).w.body =
      start.w.body ++ "\x7b\"message\":\"Missing auth token.\"\x7d\n" :=
  ⟨rfl, rfl, missing_auth_token _ _ _ _ _ rfl (Or.inl rfl)⟩

/-- C5, as stated, fails: the header `Token Bearer <token>`, with the valid token of the
test suite, is not empty and does not start with `"Bearer "`, yet the request is handed
to `next` and answered by it with status 200. -/
theorem scheme_rejection_counterexample :
    (makeAuthenticatedReqest "GET" "/protected"
        (some ("Token Bearer " ++ tokenString))).Header.Get "Authorization" ≠ "" ∧
    strings.HasPrefix
      ((makeAuthenticatedReqest "GET" "/protected"
        (some ("Token Bearer " ++ tokenString))).Header.Get "Authorization") "Bearer " =
      false ∧
    (JwtMiddleware (jwt.Parse testPrimitives) testGetenv protectedHandler start
      (makeAuthenticatedReqest "GET" "/protected"
        (some ("Token Bearer " ++ tokenString)))).served =
      [makeAuthenticatedReqest "GET" "/protected" (some ("Token Bearer " ++ tokenString))] ∧
    (JwtMiddleware (jwt.Parse testPrimitives) testGetenv protectedHandler start
      (makeAuthenticatedReqest "GET" "/protected"
        (some ("Token Bearer " ++ tokenString)))).w.status = 200 := by
  decide

/-- C5, amended: a request with a non-empty `Authorization` field in which the literal
`"Bearer "` does not occur exactly once (not at all, as in a bare token with no scheme in
front, or twice and more) is answered with status 403 and the message
`Invalid/Malformed auth token. Authorization Header must contain Bearer token.`, and
`next` is not invoked, whatever the parser would make of the field. -/
theorem scheme_rejection_of_not_once (parse : String → jwt.Keyfunc → jwt.ParseResult)
    (getenv : String → String) (next : Handler) (s : State) (r : Request)
    (hw : s.w.wroteHeader = false)
    (hne : r.Header.Get "Authorization" ≠ "")
    (h1 : occurrences "Bearer ".data (r.Header.Get "Authorization").data ≠ 1) :
    RejectedWith s (JwtMiddleware parse getenv next s r)
      "Invalid/Malformed auth token. Authorization Header must contain Bearer token." := by
  have hl : (strings.Split (r.Header.Get "Authorization") "Bearer ").length ≠ 2 := by
    rw [Split_Bearer_length]
    omega
  rw [JwtMiddleware_scheme parse getenv next s r hne hl]
  exact rejectedWith_Respond s _ hw

/-- C5, amended, at the fifth test of the suite (the bare token as the field, no
occurrence) and at the field `xBearer Bearer y` (two occurrences, not at the start). -/
theorem scheme_rejection_of_not_once_test :
    (occurrences "Bearer ".data
        ((makeAuthenticatedReqest "GET" "/protected" (some tokenString)).Header.Get
          "Authorization").data = 0 ∧
      RejectedWith start
        (JwtMiddleware (jwt.Parse testPrimitives) testGetenv protectedHandler start
          (makeAuthenticatedReqest "GET" "/protected" (some tokenString)))
        "Invalid/Malformed auth token. Authorization Header must contain Bearer token.") ∧
    (occurrences "Bearer ".data
        ((makeAuthenticatedReqest "GET" "/protected" (some "xBearer Bearer y")).Header.Get
          "Authorization").data = 2 ∧
      strings.HasPrefix
        ((makeAuthenticatedReqest "GET" "/protected" (some "xBearer Bearer y")).Header.Get
          "Authorization") "Bearer " = false ∧
      RejectedWith start
        (JwtMiddleware (jwt.Parse testPrimitives) testGetenv protectedHandler start
          (makeAuthenticatedReqest "GET" "/protected" (some "xBearer Bearer y")))
        "Invalid/Malformed auth token. Authorization Header must contain Bearer token.") :=
  ⟨⟨by decide, scheme_rejection_of_not_once _ _ _ _ _ rfl (by decide) (by decide)⟩,
    ⟨by decide, by decide,
      scheme_rejection_of_not_once _ _ _ _ _ rfl (by decide) (by decide)⟩⟩

/-- C10: for a non-empty `Authorization` field `h`, the gate rejects with the
malformed-scheme message exactly when `"Bearer "` does not occur exactly once in `h`;
and when it occurs exactly once, the text handed to the token parser is the part of `h`
behind that occurrence. -/
theorem scheme_rejection_iff_not_once (parse : String → jwt.Keyfunc → jwt.ParseResult)
    (getenv : String → String) (next : Handler) (s : State) (r : Request)
    (hw : s.w.wroteHeader = false)
    (hne : r.Header.Get "Authorization" ≠ "") :
    (RejectedWith s (JwtMiddleware parse getenv next s r)
        "Invalid/Malformed auth token. Authorization Header must contain Bearer token." ↔
      occurrences "Bearer ".data (r.Header.Get "Authorization").data ≠ 1) ∧
    (occurrences "Bearer ".data (r.Header.Get "Authorization").data = 1 →
      ∃ before authToken : String,
        r.Header.Get "Authorization" = before ++ "Bearer " ++ authToken ∧
        JwtMiddleware parse getenv next s r =
          match parse authToken (keyFunc getenv) with
          | jwt.ParseResult.fail _ err =>
            { s with
              w := Respond s.w StatusForbidden
                     (Message ("Malformed authorization token. " ++ err.Error)) }
          | jwt.ParseResult.ok token =>
            if token.Valid = false then
              { s with
                w := Respond s.w StatusForbidden
                       (Message "Authorization token is not valid.") }
            else ServeHTTP next s r) := by
  by_cases h1 : occurrences "Bearer ".data (r.Header.Get "Authorization").data = 1
  · have hl : (strings.Split (r.Header.Get "Authorization") "Bearer ").length = 2 := by
      rw [Split_Bearer_length, h1]
    obtain ⟨before, authToken, hs⟩ := List.length_eq_two.mp hl
    have hgate := JwtMiddleware_token parse getenv next s r before authToken hne hs
    refine ⟨⟨fun hrej => ?_, fun hno => absurd h1 hno⟩,
      fun _ => ⟨before, authToken, Split_Bearer_pair _ _ _ hs, hgate⟩⟩
    rw [hgate] at hrej
    exact absurd hrej (token_branch_not_scheme parse getenv next s r authToken)
  · have hl : (strings.Split (r.Header.Get "Authorization") "Bearer ").length ≠ 2 := by
      rw [Split_Bearer_length]
      omega
    refine ⟨⟨fun _ => h1, fun _ => ?_⟩, fun h => absurd h h1⟩
    rw [JwtMiddleware_scheme parse getenv next s r hne hl]
    exact rejectedWith_Respond s _ hw

/-- C10 at the header `Bearer thisisntajsonwebtoken` of the fourth test. -/
theorem scheme_rejection_iff_not_once_test :
    (RejectedWith start
        (JwtMiddleware (jwt.Parse testPrimitives) testGetenv protectedHandler start
          (makeAuthenticatedReqest "GET" "/protected" (some "Bearer thisisntajsonwebtoken")))
        "Invalid/Malformed auth token. Authorization Header must contain Bearer token." ↔
      occurrences "Bearer ".data
        ((makeAuthenticatedReqest "GET" "/protected"
          (some "Bearer thisisntajsonwebtoken")).Header.Get "Authorization").data ≠ 1) ∧
    (occurrences "Bearer ".data
        ((makeAuthenticatedReqest "GET" "/protected"
          (some "Bearer thisisntajsonwebtoken")).Header.Get "Authorization").data = 1 →
      ∃ before authToken : String,
        (makeAuthenticatedReqest "GET" "/protected"
          (some "Bearer thisisntajsonwebtoken")).Header.Get "Authorization" =
          before ++ "Bearer " ++ authToken ∧
        JwtMiddleware (jwt.Parse testPrimitives) testGetenv protectedHandler start
            (makeAuthenticatedReqest "GET" "/protected"
              (some "Bearer thisisntajsonwebtoken")) =
          match jwt.Parse testPrimitives authToken (keyFunc testGetenv) with
          | jwt.ParseResult.fail _ err =>
            { start with
              w := Respond start.w StatusForbidden
                     (Message ("Malformed authorization token. " ++ err.Error)) }
          | jwt.ParseResult.ok token =>
            if token.Valid = false then
              { start with
                w := Respond start.w StatusForbidden
                       (Message "Authorization token is not valid.") }
            else ServeHTTP protectedHandler start
              (makeAuthenticatedReqest "GET" "/protected"
                (some "Bearer thisisntajsonwebtoken"))) :=
  scheme_rejection_iff_not_once _ _ _ _ _ rfl (by decide)

/-- C7: every request ends in exactly one of two ways: it is handed to `next` once and
the gate writes nothing itself, or it is not handed to `next` and the gate writes status
403 and a JSON object with the one key `"message"`. -/
theorem passed_on_or_rejected (parse : String → jwt.Keyfunc → jwt.ParseResult)
    (getenv : String → String) (next : Handler) (s : State) (r : Request)
    (hw : s.w.wroteHeader = false) :
    (PassedOn next s (JwtMiddleware parse getenv next s r) r ∨
      ∃ message : String, RejectedWith s (JwtMiddleware parse getenv next s r) message) ∧
    ¬ (PassedOn next s (JwtMiddleware parse getenv next s r) r ∧
      ∃ message : String, RejectedWith s (JwtMiddleware parse getenv next s r) message) := by
  constructor
  · rcases JwtMiddleware_cases parse getenv next s r with h | ⟨message, h⟩
    · rw [h]
      exact Or.inl ⟨rfl, rfl⟩
    · rw [h]
      exact Or.inr ⟨message, rejectedWith_Respond s message hw⟩
  · rintro ⟨hp, message, hr⟩
    have h := congrArg List.length (hp.1.symm.trans hr.2.2)
    simp at h

/-- C7 at the second test of the suite, where the request is handed on. -/
theorem passed_on_or_rejected_test :
    start.w.wroteHeader = false ∧
    ((PassedOn protectedHandler start
        (JwtMiddleware (jwt.Parse testPrimitives) testGetenv protectedHandler start
          (makeAuthenticatedReqest "GET" "/protected" (some ("Bearer " ++ tokenString))))
        (makeAuthenticatedReqest "GET" "/protected" (some ("Bearer " ++ tokenString))) ∨
      ∃ message : String, RejectedWith start
        (JwtMiddleware (jwt.Parse testPrimitives) testGetenv protectedHandler start
          (makeAuthenticatedReqest "GET" "/protected" (some ("Bearer " ++ tokenString))))
        message) ∧
    ¬ (PassedOn protectedHandler start
        (JwtMiddleware (jwt.Parse testPrimitives) testGetenv protectedHandler start
          (makeAuthenticatedReqest "GET" "/protected" (some ("Bearer " ++ tokenString))))
        (makeAuthenticatedReqest "GET" "/protected" (some ("Bearer " ++ tokenString))) ∧
      ∃ message : String, RejectedWith start
        (JwtMiddleware (jwt.Parse testPrimitives) testGetenv protectedHandler start
          (makeAuthenticatedReqest "GET" "/protected" (some ("Bearer " ++ tokenString))))
        message)) :=
  ⟨rfl, passed_on_or_rejected _ _ _ _ _ rfl⟩

/-- C8, the defect: `Respond` calls `WriteHeader` before it adds `Content-Type` to the
header map.  So for every rejection (a run that hands nothing to `next`) on a writer
whose header was not yet written, status 403 is committed together with the header
fields the writer had before the gate ran, and the field `Content-Type:
application/json` is added to the map afterwards only: it is not part of the committed
response unless it was there before. -/
theorem content_type_not_committed (parse : String → jwt.Keyfunc → jwt.ParseResult)
    (getenv : String → String) (next : Handler) (s : State) (r : Request)
    (hw : s.w.wroteHeader = false)
    (hrej : (JwtMiddleware parse getenv next s r).served = s.served) :
    (JwtMiddleware parse getenv next s r).w.status = 403 ∧
    (JwtMiddleware parse getenv next s r).w.sentHeader = s.w.header ∧
    (JwtMiddleware parse getenv next s r).w.header =
      Header.Add s.w.header "Content-Type" "application/json" := by
  rcases JwtMiddleware_cases parse getenv next s r with h | ⟨message, h⟩
  · rw [h] at hrej
    have hl := congrArg List.length hrej
    simp [ServeHTTP] at hl
  · rw [h]
    refine ⟨Respond_status _ _ _ hw, Respond_sentHeader _ _ _ hw, ?_⟩
    simp [Respond, ResponseWriter.Write, ResponseWriter.HeaderAdd,
      ResponseWriter.WriteHeader, hw]

/-- C8 at the first test of the suite: the rejection of the unauthenticated request on a
fresh recorder is committed with status 403 and without a `Content-Type` field. -/
theorem content_type_not_committed_test :
    ((JwtMiddleware (jwt.Parse testPrimitives) testGetenv protectedHandler start
        (makeUnauthenticatedRequest "GET" "/protected")).w.status = 403 ∧
      (JwtMiddleware (jwt.Parse testPrimitives) testGetenv protectedHandler start
        (makeUnauthenticatedRequest "GET" "/protected")).w.sentHeader = start.w.header ∧
      (JwtMiddleware (jwt.Parse testPrimitives) testGetenv protectedHandler start
        (makeUnauthenticatedRequest "GET" "/protected")).w.header =
        Header.Add start.w.header "Content-Type" "application/json") ∧
    Header.Get
      (JwtMiddleware (jwt.Parse testPrimitives) testGetenv protectedHandler start
        (makeUnauthenticatedRequest "GET" "/protected")).w.sentHeader "Content-Type" = "" ∧
    Header.Get
      (JwtMiddleware (jwt.Parse testPrimitives) testGetenv protectedHandler start
        (makeUnauthenticatedRequest "GET" "/protected")).w.header "Content-Type" =
      "application/json" :=
  ⟨content_type_not_committed _ _ _ _ _ rfl (by decide), by decide, by decide⟩

/-- C2, as stated, fails: the token below has three blank-free segments, its header names
HS256, its claims segment decodes, and its signature segment is the HMAC-SHA256 of its
first two segments under `token_password`; but its claim `exp` lies in the past, the
parser returns the error `Token is expired`, and the gate answers with status 403
without handing the request to `next`. -/
theorem valid_token_counterexample :
    strings.Split expiredTokenString "." =
      ["eyJhbGciOiJIUzI1NiIsInR5cCI6IkpXVCJ9", "eyJleHAiOjF9",
        "3Sl1v2eYy63T6BIXtjIONQ8tiZNxQMdTrEa2G3_9iPw"] ∧
    Char.ofNat 32 ∉ expiredTokenString.data ∧
    (match testPrimitives.DecodeSegment "eyJhbGciOiJIUzI1NiIsInR5cCI6IkpXVCJ9" with
      | Except.ok headerBytes =>
        (match testPrimitives.UnmarshalHeader headerBytes with
          | Except.ok header => header.lookup "alg"
          | Except.error _ => none)
      | Except.error _ => none) = some (jwt.Value.string "HS256") ∧
    (match testPrimitives.DecodeSegment "eyJleHAiOjF9" with
      | Except.ok claimBytes =>
        (match testPrimitives.DecodeClaims claimBytes with
          | Except.ok claims => some claims
          | Except.error _ => none)
      | Except.error _ => none) = some [("exp", jwt.Value.other "1")] ∧
    signatureMatches testPrimitives (testGetenv "token_password") expiredTokenString =
      true ∧
    (JwtMiddleware (jwt.Parse testPrimitives) testGetenv protectedHandler start
      (makeAuthenticatedReqest "GET" "/protected"
        (some ("Bearer " ++ expiredTokenString)))).served = [] ∧
    (JwtMiddleware (jwt.Parse testPrimitives) testGetenv protectedHandler start
      (makeAuthenticatedReqest "GET" "/protected"
        (some ("Bearer " ++ expiredTokenString)))).w.status = 403 ∧
    (JwtMiddleware (jwt.Parse testPrimitives) testGetenv protectedHandler start
      (makeAuthenticatedReqest "GET" "/protected"
        (some ("Bearer " ++ expiredTokenString)))).w.body =
      "\x7b\"message\":\"Malformed authorization token. Token is expired\"\x7d\n" := by
  decide

/-- C2, amended: a request whose `Authorization` field is `"Bearer "` followed by a
well-formed token (three segments free of blanks; header and claims decode) that names
an HMAC method, whose signature segment decodes to the HMAC of its first two segments
under `token_password`, and whose claims pass the parser's validation is handed to
`next` exactly once, the same request, and the gate writes nothing: the response is what
`next` makes of the writer the gate was given. -/
theorem valid_token_passes (P : jwt.Primitives) (getenv : String → String)
    (next : Handler) (s : State) (r : Request)
    (tok part0 part1 part2 alg : String) (headerBytes claimBytes sig : jwt.Bytes)
    (header claims : List (String × jwt.Value))
    (hh : r.Header.Get "Authorization" = "Bearer " ++ tok)
    (hblank : Char.ofNat 32 ∉ tok.data)
    (hparts : strings.Split tok "." = [part0, part1, part2])
    (hd0 : P.DecodeSegment part0 = Except.ok headerBytes)
    (hu : P.UnmarshalHeader headerBytes = Except.ok header)
    (halg : header.lookup "alg" = some (jwt.Value.string alg))
    (hhs : alg = "HS256" ∨ alg = "HS384" ∨ alg = "HS512")
    (hd1 : P.DecodeSegment part1 = Except.ok claimBytes)
    (hc : P.DecodeClaims claimBytes = Except.ok claims)
    (hcv : P.ClaimsValid claims = none)
    (hav : P.HashAvailable alg = true)
    (hd2 : P.DecodeSegment part2 = Except.ok sig)
    (hmac : sig = P.MAC alg (jwt.bytes (getenv "token_password"))
      (jwt.bytes (part0 ++ "." ++ part1))) :
    PassedOn next s (JwtMiddleware (jwt.Parse P) getenv next s r) r := by
  have hv := Verify_HMAC_none P alg (part0 ++ "." ++ part1) part2
    (jwt.bytes (getenv "token_password")) sig hd2 hav hmac
  have hp := Parse_decoded P (keyFunc getenv) tok part0 part1 part2 alg
    (jwt.SigningMethod.HMAC alg) headerBytes claimBytes header claims hparts hd0 hu halg
    hd1 hc (GetSigningMethod_HS alg hhs)
  rw [keyFunc_HMAC getenv _ alg rfl] at hp
  simp only [hv, hcv] at hp
  rw [JwtMiddleware_Bearer (jwt.Parse P) getenv next s r tok hh
    (occurrences_Bearer_of_no_blank tok hblank), hp]
  exact ⟨rfl, rfl⟩

/-- C2, amended, at the second test of the suite: the HS256 token signed under `"this is a test"`
gets through, and the response is the protected handler's. -/
theorem valid_token_passes_test :
    PassedOn protectedHandler start
      (JwtMiddleware (jwt.Parse testPrimitives) testGetenv protectedHandler start
        (makeAuthenticatedReqest "GET" "/protected" (some ("Bearer " ++ tokenString))))
      (makeAuthenticatedReqest "GET" "/protected" (some ("Bearer " ++ tokenString))) ∧
    (protectedHandler start.w
      (makeAuthenticatedReqest "GET" "/protected" (some ("Bearer " ++ tokenString)))).status =
      200 ∧
    (protectedHandler start.w
      (makeAuthenticatedReqest "GET" "/protected" (some ("Bearer " ++ tokenString)))).body =
      "\x7b\"message\":\"got through protection\"\x7d" :=
  ⟨valid_token_passes testPrimitives testGetenv protectedHandler start _ tokenString
      "eyJhbGciOiJIUzI1NiIsInR5cCI6IkpXVCJ9" "e30"
      "yQR3GiOFz0wExE8QaXboxqgsV7wHZk4CfwjyrexkQRw" "HS256"
      (jwt.bytes "\x7b\"alg\":\"HS256\",\"typ\":\"JWT\"\x7d") (jwt.bytes "\x7b\x7d")
      [201, 4, 119, 26, 35, 133, 207, 76, 4, 196, 79, 16, 105, 118, 232, 198,
        168, 44, 87, 188, 7, 102, 78, 2, 127, 8, 242, 173, 236, 100, 65, 28]
      [("alg", jwt.Value.string "HS256"), ("typ", jwt.Value.string "JWT")] []
      (by decide) (by decide) (by decide) rfl rfl (by decide)
      (Or.inl rfl) rfl rfl (by decide) (by decide) rfl (by decide),
    by decide, by decide⟩

/-- C3, as stated, fails: in the first header below the token has three segments, its
header segment declares RS256 (the parser, handed this token, would answer with the
RS256 message), and the signature segment is `Bearer x`; the gate answers with the
malformed-scheme message and never parses the token.  In the second header the token
declares `EdDSA`, which jwt-go does not register; the parser stops before it calls the
key function, and the message does not name the method. -/
theorem unexpected_signing_method_counterexample :
    strings.Split (rs256SigningString ++ ".Bearer x") "." =
      ["eyJ0eXAiOiJKV1QiLCJhbGciOiJSUzI1NiJ9", "eyJmb28iOiJiYXIifQ", "Bearer x"] ∧
    (match jwt.Parse testPrimitives (rs256SigningString ++ ".Bearer x")
        (keyFunc testGetenv) with
      | jwt.ParseResult.fail _ err => err.Error
      | jwt.ParseResult.ok _ => "") = "Unexpected signing method: RS256." ∧
    (JwtMiddleware (jwt.Parse testPrimitives) testGetenv protectedHandler start
      (makeAuthenticatedReqest "GET" "/protected"
        (some ("Bearer " ++ rs256SigningString ++ ".Bearer x")))).w.body =
      "\x7b\"message\":\"Invalid/Malformed auth token. " ++
        "Authorization Header must contain Bearer token.\"\x7d\n" ∧
    (JwtMiddleware (jwt.Parse testPrimitives) testGetenv protectedHandler start
      (makeAuthenticatedReqest "GET" "/protected"
        (some ("Bearer " ++ "eyJhbGciOiJFZERTQSIsInR5cCI6IkpXVCJ9.e30.AAAA")))).w.body =
      "\x7b\"message\":\"Malformed authorization token. " ++
        "signing method (alg) is unavailable.\"\x7d\n" := by
  decide

/-- C3, amended: for a request whose `Authorization` field is `"Bearer "` followed by a
three-segment token in which `"Bearer "` does not occur, whose header and claims
segments decode and whose header names a registered method `alg` that is not of the HMAC
type, the key function returns an error (so never the secret), and the gate answers with
status 403 and the message `Malformed authorization token. Unexpected signing method:
alg.` without invoking `next`, whatever the signature segment is. -/
theorem unexpected_signing_method (P : jwt.Primitives) (getenv : String → String)
    (next : Handler) (s : State) (r : Request)
    (tok part0 part1 part2 alg : String) (m : jwt.SigningMethod)
    (headerBytes claimBytes : jwt.Bytes) (header claims : List (String × jwt.Value))
    (hw : s.w.wroteHeader = false)
    (hh : r.Header.Get "Authorization" = "Bearer " ++ tok)
    (h0 : occurrences "Bearer ".data tok.data = 0)
    (hparts : strings.Split tok "." = [part0, part1, part2])
    (hd0 : P.DecodeSegment part0 = Except.ok headerBytes)
    (hu : P.UnmarshalHeader headerBytes = Except.ok header)
    (halg : header.lookup "alg" = some (jwt.Value.string alg))
    (hd1 : P.DecodeSegment part1 = Except.ok claimBytes)
    (hc : P.DecodeClaims claimBytes = Except.ok claims)
    (hm : jwt.GetSigningMethod alg = some m)
    (hnh : ∀ name, m ≠ jwt.SigningMethod.HMAC name) :
    keyFunc getenv
        { Raw := tok, Method := some m, Header := header, Claims := claims,
          Signature := "", Valid := false } =
      Except.error (jwt.Error.errorString ("Unexpected signing method: " ++ alg ++ ".")) ∧
    RejectedWith s (JwtMiddleware (jwt.Parse P) getenv next s r)
      ("Malformed authorization token. " ++ ("Unexpected signing method: " ++ alg ++ ".")) := by
  have hk : keyFunc getenv
        { Raw := tok, Method := some m, Header := header, Claims := claims,
          Signature := "", Valid := false } =
      Except.error (jwt.Error.errorString ("Unexpected signing method: " ++ alg ++ ".")) := by
    rw [keyFunc_not_HMAC getenv _ (fun name hn => hnh name (by simpa using hn))]
    simp only [halg, jwt.formatV]
  refine ⟨hk, ?_⟩
  have hp := Parse_decoded P (keyFunc getenv) tok part0 part1 part2 alg m headerBytes
    claimBytes header claims hparts hd0 hu halg hd1 hc hm
  rw [hk] at hp
  simp only [] at hp
  rw [JwtMiddleware_Bearer (jwt.Parse P) getenv next s r tok hh h0, hp]
  exact rejectedWith_Respond s _ hw

/-- C3, amended, at the third test of the suite: the RS256 token. -/
theorem unexpected_signing_method_test :
    RejectedWith start
      (JwtMiddleware (jwt.Parse testPrimitives) testGetenv protectedHandler start
        (makeAuthenticatedReqest "GET" "/protected" (some ("Bearer " ++ rs256TokenString))))
      ("Malformed authorization token. " ++ ("Unexpected signing method: " ++ "RS256" ++ ".")) :=
  (unexpected_signing_method testPrimitives testGetenv protectedHandler start _
    rs256TokenString "eyJ0eXAiOiJKV1QiLCJhbGciOiJSUzI1NiJ9" "eyJmb28iOiJiYXIifQ"
    rs256Signature "RS256" (jwt.SigningMethod.RSA "RS256")
    (jwt.bytes "\x7b\"typ\":\"JWT\",\"alg\":\"RS256\"\x7d")
    (jwt.bytes "\x7b\"foo\":\"bar\"\x7d")
    [("typ", jwt.Value.string "JWT"), ("alg", jwt.Value.string "RS256")]
    [("foo", jwt.Value.string "bar")]
    rfl (by decide) (by decide) (by decide) rfl rfl (by decide) rfl rfl (by decide)
    (fun name hn => by cases hn)).2

/-- C6, as stated, fails: the text `Bearer x` behind `"Bearer "` does not consist of three
dot-delimited segments, and the gate answers with the malformed-scheme message. -/
theorem invalid_segments_counterexample :
    (strings.Split "Bearer x" ".").length ≠ 3 ∧
    (JwtMiddleware (jwt.Parse testPrimitives) testGetenv protectedHandler start
      (makeAuthenticatedReqest "GET" "/protected"
        (some ("Bearer " ++ "Bearer x")))).w.body =
      "\x7b\"message\":\"Invalid/Malformed auth token. " ++
        "Authorization Header must contain Bearer token.\"\x7d\n" := by
  decide

/-- C6, amended: a request whose `Authorization` field is `"Bearer "` followed by a text
in which `"Bearer "` does not occur and that does not consist of exactly three
dot-delimited segments is answered with status 403 and the message `Malformed
authorization token. token contains an invalid number of segments`, and `next` is not
invoked. -/
theorem invalid_segments (P : jwt.Primitives) (getenv : String → String)
    (next : Handler) (s : State) (r : Request) (t : String)
    (hw : s.w.wroteHeader = false)
    (hh : r.Header.Get "Authorization" = "Bearer " ++ t)
    (h0 : occurrences "Bearer ".data t.data = 0)
    (hseg : (strings.Split t ".").length ≠ 3) :
    RejectedWith s (JwtMiddleware (jwt.Parse P) getenv next s r)
      "Malformed authorization token. token contains an invalid number of segments" := by
  rw [JwtMiddleware_Bearer (jwt.Parse P) getenv next s r t hh h0,
    Parse_segments P t _ hseg]
  exact rejectedWith_Respond s _ hw

/-- C6, amended, at the fourth test of the suite. -/
theorem invalid_segments_test :
    (strings.Split "thisisntajsonwebtoken" ".").length ≠ 3 ∧
    RejectedWith start
      (JwtMiddleware (jwt.Parse testPrimitives) testGetenv protectedHandler start
        (makeAuthenticatedReqest "GET" "/protected" (some "Bearer thisisntajsonwebtoken")))
      "Malformed authorization token. token contains an invalid number of segments" :=
  ⟨by decide, invalid_segments testPrimitives testGetenv protectedHandler start _
    "thisisntajsonwebtoken" rfl (by decide) (by decide) (by decide)⟩

/-- C4, as stated, fails: in the header below the signature segment of the token is
`Bearer x`, which does not decode, so the signature does not match; the gate answers with
the malformed-scheme message, which is not `Malformed authorization token. ` followed by
an error text of the parser. -/
theorem bad_signature_counterexample :
    signatureMatches testPrimitives (testGetenv "token_password")
      "eyJhbGciOiJIUzI1NiIsInR5cCI6IkpXVCJ9.e30.Bearer x" = false ∧
    (JwtMiddleware (jwt.Parse testPrimitives) testGetenv protectedHandler start
      (makeAuthenticatedReqest "GET" "/protected"
        (some ("Bearer " ++ "eyJhbGciOiJIUzI1NiIsInR5cCI6IkpXVCJ9.e30.Bearer x")))).w.body =
      "\x7b\"message\":\"Invalid/Malformed auth token. " ++
        "Authorization Header must contain Bearer token.\"\x7d\n" := by
  decide

/-- C4, amended: for a request whose `Authorization` field is `"Bearer "` followed by a
token in which `"Bearer "` does not occur and whose signature segment does not decode to
the HMAC of its first two segments under `token_password`, the parser returns an error,
`next` is not invoked, and the gate answers with status 403 and the message `Malformed
authorization token. ` followed by the text of that error. -/
theorem bad_signature_rejected (P : jwt.Primitives) (getenv : String → String)
    (next : Handler) (s : State) (r : Request) (tok : String)
    (hw : s.w.wroteHeader = false)
    (hh : r.Header.Get "Authorization" = "Bearer " ++ tok)
    (h0 : occurrences "Bearer ".data tok.data = 0)
    (hsig : signatureMatches P (getenv "token_password") tok = false) :
    ∃ (token : Option jwt.Token) (err : jwt.ValidationError),
      jwt.Parse P tok (keyFunc getenv) = jwt.ParseResult.fail token err ∧
      RejectedWith s (JwtMiddleware (jwt.Parse P) getenv next s r)
        ("Malformed authorization token. " ++ err.Error) := by
  cases hp : jwt.Parse P tok (keyFunc getenv) with
  | ok token =>
    have := Parse_ok_signature P getenv tok token hp
    rw [hsig] at this
    exact absurd this (by decide)
  | fail token err =>
    refine ⟨token, err, rfl, ?_⟩
    rw [JwtMiddleware_Bearer (jwt.Parse P) getenv next s r tok hh h0, hp]
    exact rejectedWith_Respond s _ hw

/-- C4, amended, at the token of the test suite with the signature of another token: the
parser answers `signature is invalid`. -/
theorem bad_signature_rejected_test :
    signatureMatches testPrimitives (testGetenv "token_password")
      ("eyJhbGciOiJIUzI1NiIsInR5cCI6IkpXVCJ9.e30." ++
        "3Sl1v2eYy63T6BIXtjIONQ8tiZNxQMdTrEa2G3_9iPw") = false ∧
    (∃ (token : Option jwt.Token) (err : jwt.ValidationError),
      jwt.Parse testPrimitives
          ("eyJhbGciOiJIUzI1NiIsInR5cCI6IkpXVCJ9.e30." ++
            "3Sl1v2eYy63T6BIXtjIONQ8tiZNxQMdTrEa2G3_9iPw") (keyFunc testGetenv) =
        jwt.ParseResult.fail token err ∧
      RejectedWith start
        (JwtMiddleware (jwt.Parse testPrimitives) testGetenv protectedHandler start
          (makeAuthenticatedReqest "GET" "/protected"
            (some ("Bearer " ++ ("eyJhbGciOiJIUzI1NiIsInR5cCI6IkpXVCJ9.e30." ++
              "3Sl1v2eYy63T6BIXtjIONQ8tiZNxQMdTrEa2G3_9iPw")))))
        ("Malformed authorization token. " ++ err.Error)) ∧
    (match jwt.Parse testPrimitives
        ("eyJhbGciOiJIUzI1NiIsInR5cCI6IkpXVCJ9.e30." ++
          "3Sl1v2eYy63T6BIXtjIONQ8tiZNxQMdTrEa2G3_9iPw") (keyFunc testGetenv) with
      | jwt.ParseResult.fail _ err => err.Error
      | jwt.ParseResult.ok _ => "") = "signature is invalid" :=
  ⟨by decide,
    bad_signature_rejected testPrimitives testGetenv protectedHandler start _ _ rfl
      (by decide) (by decide) (by decide),
    by decide⟩

/-- C9, as stated, fails: the token below is well formed, its signature matches under
`token_password`, and its claims are flagged (`exp` lies in the past); the parser
returns the error `Token is expired`, and the gate answers with `Malformed authorization
token. Token is expired`, not with `Authorization token is not valid.` -/
theorem token_not_valid_counterexample :
    signatureMatches testPrimitives (testGetenv "token_password") expiredTokenString =
      true ∧
    testPrimitives.ClaimsValid [("exp", jwt.Value.other "1")] =
      some { Inner := some "Token is expired", Errors := 16, text := "" } ∧
    (JwtMiddleware (jwt.Parse testPrimitives) testGetenv protectedHandler start
      (makeAuthenticatedReqest "GET" "/protected"
        (some ("Bearer " ++ expiredTokenString)))).w.body =
      "\x7b\"message\":\"Malformed authorization token. Token is expired\"\x7d\n" ∧
    (JwtMiddleware (jwt.Parse testPrimitives) testGetenv protectedHandler start
      (makeAuthenticatedReqest "GET" "/protected"
        (some ("Bearer " ++ expiredTokenString)))).w.body ≠
      "\x7b\"message\":\"Authorization token is not valid.\"\x7d\n" := by
  decide

/-- C9, amended: for a request whose `Authorization` field is `"Bearer "` followed by a
well-formed token whose signature matches under `token_password` but whose claims the
parser's validation flags with the error `e` (an expired `exp`, say), the parser returns
`e`, and the gate answers with status 403 and the message `Malformed authorization
token. ` followed by the text of `e`, without invoking `next`.  The message
`Authorization token is not valid.` belongs to a token returned without an error and
not flagged valid, which the parser never returns. -/
theorem flagged_claims_rejected (P : jwt.Primitives) (getenv : String → String)
    (next : Handler) (s : State) (r : Request)
    (tok part0 part1 part2 alg : String) (headerBytes claimBytes sig : jwt.Bytes)
    (header claims : List (String × jwt.Value)) (e : jwt.ValidationError)
    (hw : s.w.wroteHeader = false)
    (hh : r.Header.Get "Authorization" = "Bearer " ++ tok)
    (hblank : Char.ofNat 32 ∉ tok.data)
    (hparts : strings.Split tok "." = [part0, part1, part2])
    (hd0 : P.DecodeSegment part0 = Except.ok headerBytes)
    (hu : P.UnmarshalHeader headerBytes = Except.ok header)
    (halg : header.lookup "alg" = some (jwt.Value.string alg))
    (hhs : alg = "HS256" ∨ alg = "HS384" ∨ alg = "HS512")
    (hd1 : P.DecodeSegment part1 = Except.ok claimBytes)
    (hc : P.DecodeClaims claimBytes = Except.ok claims)
    (hcv : P.ClaimsValid claims = some e)
    (hev : e.valid = false)
    (hav : P.HashAvailable alg = true)
    (hd2 : P.DecodeSegment part2 = Except.ok sig)
    (hmac : sig = P.MAC alg (jwt.bytes (getenv "token_password"))
      (jwt.bytes (part0 ++ "." ++ part1))) :
    (∃ token : jwt.Token,
      jwt.Parse P tok (keyFunc getenv) = jwt.ParseResult.fail (some token) e) ∧
    RejectedWith s (JwtMiddleware (jwt.Parse P) getenv next s r)
      ("Malformed authorization token. " ++ e.Error) ∧
    (∀ (t : String) (keyFunc : jwt.Keyfunc) (token : jwt.Token),
      jwt.Parse P t keyFunc = jwt.ParseResult.ok token → token.Valid = true) := by
  have hv := Verify_HMAC_none P alg (part0 ++ "." ++ part1) part2
    (jwt.bytes (getenv "token_password")) sig hd2 hav hmac
  have hp := Parse_decoded P (keyFunc getenv) tok part0 part1 part2 alg
    (jwt.SigningMethod.HMAC alg) headerBytes claimBytes header claims hparts hd0 hu halg
    hd1 hc (GetSigningMethod_HS alg hhs)
  rw [keyFunc_HMAC getenv _ alg rfl] at hp
  simp only [hv, hcv, hev] at hp
  refine ⟨⟨_, hp⟩, ?_, fun t keyFunc token h => Parse_ok_Valid P t keyFunc token h⟩
  rw [JwtMiddleware_Bearer (jwt.Parse P) getenv next s r tok hh
    (occurrences_Bearer_of_no_blank tok hblank), hp]
  exact rejectedWith_Respond s _ hw

/-- C9, amended, at the expired token. -/
theorem flagged_claims_rejected_test :
    RejectedWith start
      (JwtMiddleware (jwt.Parse testPrimitives) testGetenv protectedHandler start
        (makeAuthenticatedReqest "GET" "/protected" (some ("Bearer " ++ expiredTokenString))))
      ("Malformed authorization token. " ++
        jwt.ValidationError.Error
          { Inner := some "Token is expired", Errors := 16, text := "" }) :=
  (flagged_claims_rejected testPrimitives testGetenv protectedHandler start _
    expiredTokenString "eyJhbGciOiJIUzI1NiIsInR5cCI6IkpXVCJ9" "eyJleHAiOjF9"
    "3Sl1v2eYy63T6BIXtjIONQ8tiZNxQMdTrEa2G3_9iPw" "HS256"
    (jwt.bytes "\x7b\"alg\":\"HS256\",\"typ\":\"JWT\"\x7d") (jwt.bytes "\x7b\"exp\":1\x7d")
    [221, 41, 117, 191, 103, 152, 203, 173, 211, 232, 18, 23, 182, 50, 14, 53,
      15, 45, 137, 147, 113, 64, 199, 83, 172, 70, 182, 27, 127, 253, 136, 252]
    [("alg", jwt.Value.string "HS256"), ("typ", jwt.Value.string "JWT")]
    [("exp", jwt.Value.other "1")]
    { Inner := some "Token is expired", Errors := 16, text := "" }
    rfl (by decide) (by decide) (by decide) rfl rfl (by decide)
    (Or.inl rfl) rfl rfl rfl (by decide) (by decide) rfl (by decide)).2.1

end jwtmiddleware
